import Mathlib

/-!
# Game of Life (SDL2) — grid, rule, edit and event handling of `src/main.c`

A shallow embedding of the simulation core of `main.c`.  The `cells` array is a
list of `CELL_COUNT` records; every array access of the source is a checked
access returning `Option`, so an out-of-range index shows up as `none`.
The OpenGL calls are left out; the reads that feed them are kept.
-/

namespace GameOfLife

/-! ## Constants (`main.c` lines 8–17) -/

def WINDOW_W : Nat := 1200
def WINDOW_H : Nat := 800
def CELL_W : Nat := 10
def CELL_H : Nat := 10
def CELL_ROWS : Nat := WINDOW_W / CELL_W
def CELL_COLS : Nat := WINDOW_H / CELL_H
def CELLS_X : Nat := 1
def CELLS_Y : Nat := 1
def CELL_COUNT : Nat := (CELL_ROWS + 2) * (CELL_COLS + 2)

/-! ## Machine integers -/

/-- Number of values of a `size_t` (64-bit target). -/
def SIZE_MOD : Nat := 2 ^ 64

/-- Conversion of a signed integer to `size_t`: reduction modulo `2 ^ 64`. -/
def to_size_t (z : Int) : Nat := (z % (SIZE_MOD : Int)).toNat

/-- Two's-complement wrap of an integer into the `int` (32-bit) range. -/
def wrap_int (z : Int) : Int := (z + 2 ^ 31) % 2 ^ 32 - 2 ^ 31

/-! ## Data (`main.c` lines 24–47) -/

/-- The anonymous `enum { DEAD, ALIVE }` of `struct cell_t`. -/
inductive cell_state where
  | DEAD
  | ALIVE
  deriving DecidableEq, Repr

open cell_state

/-- The `struct cell_t`.  `pos` holds the two `float` components, which the
program only ever fills with small non-negative integers; `hovered` is the
`int` flag. -/
structure cell_t where
  pos : Nat × Nat
  state : cell_state
  hovered : Nat
  deriving DecidableEq, Repr

/-- The expression `ALIVE - s` on the enum (`ALIVE = 1`, `DEAD = 0`). -/
def alive_minus (s : cell_state) : cell_state :=
  match s with
  | DEAD => ALIVE
  | ALIVE => DEAD

/-- Checked array read `a[i]`. -/
def rd (a : List cell_t) (i : Nat) : Option cell_t := a[i]?

/-- Checked array write `a[i] = v`. -/
def wr (a : List cell_t) (i : Nat) (v : cell_t) : Option (List cell_t) :=
  if i < a.length then some (a.set i v) else none

/-- The loop `for (k = lo; k < lo + n; k++) body`, threading the state and
stopping at the first failed access. -/
def forRange {σ : Type} (lo n : Nat) (body : Nat → σ → Option σ) (s : σ) : Option σ :=
  match n with
  | 0 => some s
  | n + 1 => (body lo s).bind (forRange (lo + 1) n body)

/-- The nested loops `for (i = CELLS_Y; i < CELL_COLS + CELLS_Y; i++)
for (j = CELLS_X; j < CELL_ROWS + CELLS_X; j++) body`. -/
def forInterior {σ : Type} (body : Nat → Nat → σ → Option σ) (s : σ) : Option σ :=
  forRange CELLS_Y (CELL_COLS + CELLS_Y - CELLS_Y)
    (fun i => forRange CELLS_X (CELL_ROWS + CELLS_X - CELLS_X) (fun j => body i j)) s

/-- The index `j + i*CELL_ROWS` (a `size_t` expression) used by the loops of
`main`, `edit` and `simulate`. -/
def cell_index (j i : Nat) : Nat := (j + (i * CELL_ROWS) % SIZE_MOD) % SIZE_MOD

/-- The index `(x + j) + (y + i) * CELL_ROWS` of `get_alive_neighbours`: `x`, `y`
are `size_t`, the `int` offsets are converted to `size_t` and every operation
is modulo `2 ^ 64`. -/
def nbr_index (x y : Nat) (j i : Int) : Nat :=
  ((x + to_size_t j) % SIZE_MOD + (((y + to_size_t i) % SIZE_MOD) * CELL_ROWS) % SIZE_MOD) % SIZE_MOD

/-- The function `get_alive_neighbours` (`main.c` lines 256–271). -/
def get_alive_neighbours (cells : List cell_t) (x y : Nat) : Option Nat :=
  [(-1 : Int), 0, 1].foldlM (fun count i =>
    [(-1 : Int), 0, 1].foldlM (fun count j =>
      if i = 0 ∧ j = 0 then some count
      else (rd cells (nbr_index x y j i)).bind (fun cell =>
        if cell.state = ALIVE then some (count + 1) else some count)) count) 0

/-- Assignment `a[pos].state = v`. -/
def set_state (a : List cell_t) (pos : Nat) (v : cell_state) : Option (List cell_t) :=
  (rd a pos).bind (fun c => wr a pos { c with state := v })

/-- Body of the first loop of `simulate` (`main.c` lines 287–300). -/
def simulate_cell (cells : List cell_t) (i j : Nat) (new_cells : List cell_t) :
    Option (List cell_t) :=
  let pos := cell_index j i
  (get_alive_neighbours cells j i).bind (fun alive_neighbours =>
  (rd cells pos).bind (fun c =>
  (wr new_cells pos c).bind (fun new_cells =>
  if c.state = ALIVE then
    if alive_neighbours < 2 ∨ alive_neighbours > 3 then set_state new_cells pos DEAD
    else set_state new_cells pos ALIVE
  else
    if alive_neighbours = 3 then set_state new_cells pos ALIVE
    else some new_cells)))

/-- Body of the second loop of `simulate` (`main.c` lines 308–309): copy back
and read the cell that is drawn. -/
def commit_cell (new_cells : List cell_t) (i j : Nat) (cells : List cell_t) :
    Option (List cell_t) :=
  (rd new_cells (cell_index j i)).bind (fun v =>
  (wr cells (cell_index j i) v).bind (fun cells =>
  (rd cells (cell_index j i)).bind (fun _cell => some cells)))

/-- The grid part of `simulate` (`main.c` lines 283–318): `memcpy` into
`new_cells`, the rule loop, the copy-back loop. -/
def simulate_cells (cells : List cell_t) : Option (List cell_t) :=
  (forInterior (simulate_cell cells) cells).bind (fun new_cells =>
  forInterior (commit_cell new_cells) cells)

/-! ## Program state and events (`main.c` lines 19–58, 174–214) -/

/-- The two functions the pointer `active_state` can hold. -/
inductive active_fn where
  | edit
  | simulate
  deriving DecidableEq, Repr

/-- The mutable globals of `main.c` that the core uses. -/
structure State where
  cells : List cell_t
  running : Nat
  previous_cell : Nat
  left_btn : Nat
  mouse_x : Nat
  mouse_y : Nat
  current_cell : Nat
  changed_cell : Nat
  active_state : active_fn
  deriving DecidableEq, Repr

def SDL_BUTTON_LEFT : Nat := 1
def SDLK_a : Nat := 97
def SDLK_ESCAPE : Nat := 27

/-- The SDL events the loop distinguishes; pointer coordinates are `Sint32`. -/
inductive Event where
  | QUIT
  | MOUSEMOTION (x y : Int)
  | MOUSEBUTTONDOWN (button : Nat)
  | MOUSEBUTTONUP (button : Nat)
  | KEYDOWN (sym : Nat)
  | OTHER
  deriving DecidableEq, Repr

/-- The `SDL_MOUSEMOTION` branch (`main.c` lines 180–191).  The flag of the
result is `true` when the branch leaves the polling loop by `break`. -/
def mouse_motion (s : State) (x y : Int) : Option (State × Bool) :=
  let current_x := to_size_t (Int.tdiv (wrap_int (x + CELL_W)) CELL_W)
  let current_y := to_size_t (Int.tdiv (wrap_int (y + CELL_H)) CELL_H)
  if current_y < 0 ∨ current_y ≥ CELL_COLS + 2 ∨ current_x < 0 ∨ current_x ≥ CELL_ROWS + 2 then
    some (s, true)
  else
    let mouse_x := current_x
    let mouse_y := current_y
    let current_cell := mouse_y * CELL_ROWS + mouse_x
    (rd s.cells s.previous_cell).bind (fun c =>
    (wr s.cells s.previous_cell { c with hovered := 0 }).bind (fun cells =>
    let previous_cell := current_cell
    (rd cells current_cell).bind (fun c =>
    (wr cells current_cell { c with hovered := 1 }).bind (fun cells =>
    some ({ s with cells := cells, mouse_x := mouse_x, mouse_y := mouse_y,
                   current_cell := current_cell, previous_cell := previous_cell }, false)))))

/-- One iteration of the body of `while (SDL_PollEvent(&event))`
(`main.c` lines 176–213). -/
def handle_event (s : State) (e : Event) : Option (State × Bool) :=
  match e with
  | Event.QUIT => some ({ s with running := 0 }, true)
  | Event.MOUSEMOTION x y => mouse_motion s x y
  | Event.MOUSEBUTTONDOWN button =>
    if button = SDL_BUTTON_LEFT then some ({ s with left_btn := 1 }, false) else some (s, false)
  | Event.MOUSEBUTTONUP button =>
    if button = SDL_BUTTON_LEFT then some ({ s with left_btn := 0 }, false) else some (s, false)
  | Event.KEYDOWN sym =>
    if sym = SDLK_a then some ({ s with active_state := active_fn.simulate }, false)
    else if sym = SDLK_ESCAPE then some ({ s with running := 0 }, false)
    else some (s, false)
  | Event.OTHER => some (s, false)

/-- The loop `while (SDL_PollEvent(&event))` over the queue of pending events;
events behind a `break` stay queued. -/
def poll_events (s : State) (q : List Event) : Option (State × List Event) :=
  match q with
  | [] => some (s, [])
  | e :: q =>
    (handle_event s e).bind (fun r => if r.2 then some (r.1, q) else poll_events r.1 q)

/-- The reads of the drawing loop (`main.c` lines 242–253). -/
def draw_cells (cells : List cell_t) : Option Unit :=
  forInterior (fun i j _ => (rd cells (cell_index j i)).bind (fun _cell => some ())) ()

/-- The function `edit` (`main.c` lines 230–254). -/
def edit (s : State) : Option State :=
  (if s.left_btn ≠ 0 then
    (if s.current_cell ≠ s.changed_cell then
      (rd s.cells s.current_cell).bind (fun c =>
      (wr s.cells s.current_cell { c with state := alive_minus c.state }).bind (fun cells =>
      some { s with cells := cells }))
    else some s).bind (fun s => some { s with changed_cell := s.current_cell })
  else some s).bind (fun s =>
  (draw_cells s.cells).bind (fun _ => some s))

/-- The function `simulate` (`main.c` lines 273–326) on the program state; its
pacing is `simulate_delay`. -/
def simulate (s : State) : Option State :=
  (simulate_cells s.cells).bind (fun cells => some { s with cells := cells })

/-- The pacing at the end of `simulate` (`main.c` lines 281, 320–325), from the
two readings of `SDL_GetTicks`: `some ms` when `SDL_Delay(ms)` is called,
`none` when it is not.  The `Uint32` difference is modulo `2 ^ 32`.  The
`float` values are idealised as exact rationals: the decision whether to sleep
is decided by a margin far above the rounding error, but the argument `ms` is
the code's only while the tick difference is small enough for the `float`
products to be exact to the millisecond (differences of hours and more can be
off by one). -/
def simulate_delay (start_time end_time : Nat) : Option Nat :=
  let FPS : ℚ := 60
  let elapsed : ℚ := (((end_time + 2 ^ 32 - start_time) % 2 ^ 32 : Nat) : ℚ) / 1000
  let given : ℚ := elapsed - 1 / FPS
  if given > 1 / 1000 then some (Int.toNat ⌊given * 1000⌋) else none

/-- A cell of the zero-initialised static array. -/
def zero_cell : cell_t := { pos := (0, 0), state := DEAD, hovered := 0 }

/-- The initialisation loop of `main` (`main.c` lines 135–141) on the
zero-initialised static array. -/
def init_cells : Option (List cell_t) :=
  forInterior (fun i j cells =>
    wr cells (cell_index j i)
      { pos := ((j - CELLS_X) * CELL_W, (i - CELLS_Y) * CELL_H), state := DEAD, hovered := 0 })
    (List.replicate CELL_COUNT zero_cell)

/-- The globals when `main` enters its loop (`main.c` lines 172–173 and the
zero-initialised statics), around the given array. -/
def start_state (cells : List cell_t) : State :=
  { cells := cells, running := 1, previous_cell := 0, left_btn := 0, mouse_x := 0,
    mouse_y := 0, current_cell := 0, changed_cell := 0, active_state := active_fn.edit }

/-- The program state when `main` enters its loop (`main.c` lines 135–173). -/
def init : Option State :=
  init_cells.bind (fun cells => some (start_state cells))

/-- The call `active_state()`. -/
def call_active_state (s : State) : Option State :=
  match s.active_state with
  | active_fn.edit => edit s
  | active_fn.simulate => simulate s

/-- One iteration of `while (running)` (`main.c` lines 175–219) on the queue of
pending events: poll, then call `active_state`. -/
def frame (s : State) (q : List Event) : Option (State × List Event) :=
  (poll_events s q).bind (fun r =>
  (call_active_state r.1).bind (fun s2 => some (s2, r.2)))

/-- The loop `while (running)`; each element of the list holds the events
that arrive before one iteration.  The result is the final state with the
events still pending. -/
def main_loop (s : State) (q : List Event) (arrivals : List (List Event)) :
    Option (State × List Event) :=
  match arrivals with
  | [] => some (s, q)
  | a :: rest =>
    if s.running ≠ 0 then (frame s (q ++ a)).bind (fun r => main_loop r.1 r.2 rest)
    else some (s, q)

/-! ## Vocabulary of the specification -/

/-- The state of the cell the program reads at grid coordinates `(x, y)`:
`cells[x + y*CELL_ROWS].state`. -/
def state_at (cells : List cell_t) (x y : Int) : Option cell_state :=
  (rd cells (x + y * CELL_ROWS).toNat).map (fun c => c.state)

/-- The offsets `(dx, dy)` of the Moore neighbourhood: `dx, dy ∈ {-1, 0, 1}`
without `(0, 0)`. -/
def moore_offsets : List (Int × Int) :=
  [(-1, -1), (0, -1), (1, -1), (-1, 0), (1, 0), (-1, 1), (0, 1), (1, 1)]

/-- The number of `ALIVE` cells among the 8 positions `(x + dx, y + dy)`. -/
def alive_count (cells : List cell_t) (x y : Int) : Nat :=
  moore_offsets.countP (fun d => decide (state_at cells (x + d.1) (y + d.2) = some ALIVE))

/-- The rule `next_state(current, alive_neighbors)` in the words of the
specification (§4.2). -/
def next_state (s : cell_state) (n : Nat) : cell_state :=
  match s with
  | ALIVE => if n < 2 ∨ n > 3 then DEAD else ALIVE
  | DEAD => if n = 3 then ALIVE else DEAD

/-- The state of the grid cell at coordinates `(x, y)` as the specification has
it (§3): an interior cell, `1 ≤ x ≤ CELL_ROWS` and `1 ≤ y ≤ CELL_COLS`, has the
state the program keeps for it in `cells[x + y*CELL_ROWS]`; a position of the
one-cell border holds `DEAD`. -/
def grid_state (cells : List cell_t) (x y : Int) : Option cell_state :=
  if 1 ≤ x ∧ x ≤ (CELL_ROWS : Nat) ∧ 1 ≤ y ∧ y ≤ (CELL_COLS : Nat) then state_at cells x y
  else some DEAD

/-- The number of `ALIVE` cells among the 8 Moore positions `(x + dx, y + dy)`
of the grid of the specification, each position being the cell `grid_state`
gives for its coordinates. -/
def moore_count (cells : List cell_t) (x y : Int) : Nat :=
  moore_offsets.countP (fun d => decide (grid_state cells (x + d.1) (y + d.2) = some ALIVE))

/-- Column `x` of the interior cell stored at index `p = x + y*120`. -/
def col_of (p : Nat) : Nat := (p - 1) % 120 + 1

/-- Row `y` of the interior cell stored at index `p = x + y*120`. -/
def row_of (p : Nat) : Nat := (p - 1) / 120

/-- The record at index `p` after one generation, from the record `c` before. -/
def next_cell (cells : List cell_t) (p : Nat) (c : cell_t) : cell_t :=
  { c with state := next_state c.state (alive_count cells (col_of p) (row_of p)) }

/-- The state stored at array index `p`. -/
def state_idx (cells : List cell_t) (p : Nat) : Option cell_state :=
  (cells[p]?).map (fun c => c.state)

/-- The grid with the state of the cell at index `p` flipped. -/
def flip_idx (cells : List cell_t) (p : Nat) : List cell_t :=
  match cells[p]? with
  | some c => cells.set p { c with state := alive_minus c.state }
  | none => cells

/-- The grid whose `ALIVE` cells are exactly the array slots listed in `live`. -/
def only_alive (cells : List cell_t) (live : List Nat) : Prop :=
  cells.length = CELL_COUNT ∧ ∀ p, state_idx cells p = some ALIVE ↔ p ∈ live

/-- The array of the program is whole and the two indices the event loop
dereferences are inside it. -/
def well_formed (s : State) : Prop :=
  s.cells.length = CELL_COUNT ∧ s.previous_cell < CELL_COUNT ∧ s.current_cell < CELL_COUNT

/-- The states the program can be in at the top of `while (running)`. -/
inductive Reachable : State → Prop where
  | start (s : State) : init = some s → Reachable s
  | step (s s' : State) (q q' : List Event) :
      Reachable s → s.running ≠ 0 → frame s q = some (s', q') → Reachable s'

/-- The start state around the zero-initialised array, before the
initialisation loop has filled in the positions. -/
def zero_state : State := start_state (List.replicate CELL_COUNT zero_cell)

/-- The number of `ALIVE` cells in the eight array slots around index `p`. -/
def alive_around (cells : List cell_t) (p : Nat) : Nat :=
  (if state_idx cells (p - 121) = some ALIVE then 1 else 0) +
  (if state_idx cells (p - 120) = some ALIVE then 1 else 0) +
  (if state_idx cells (p - 119) = some ALIVE then 1 else 0) +
  (if state_idx cells (p - 1) = some ALIVE then 1 else 0) +
  (if state_idx cells (p + 1) = some ALIVE then 1 else 0) +
  (if state_idx cells (p + 119) = some ALIVE then 1 else 0) +
  (if state_idx cells (p + 120) = some ALIVE then 1 else 0) +
  (if state_idx cells (p + 121) = some ALIVE then 1 else 0)

/-- The all-`DEAD` array with the slots listed in `live` set `ALIVE`. -/
def grid_of (live : List Nat) : List cell_t :=
  (List.range CELL_COUNT).map (fun p =>
    if p ∈ live then { zero_cell with state := ALIVE } else zero_cell)

/-- The pixel `m` lies in the square drawn for the interior cell `(x, y)`, whose
corner is `((x-1)*CELL_W, (y-1)*CELL_H)` and whose sides are `CELL_W`, `CELL_H`. -/
def pointer_in_cell (m : Int × Int) (x y : Nat) : Prop :=
  (CELL_W : Int) * ((x : Int) - 1) ≤ m.1 ∧ m.1 < (CELL_W : Int) * x ∧
  (CELL_H : Int) * ((y : Int) - 1) ≤ m.2 ∧ m.2 < (CELL_H : Int) * y

/-- The frames of one drag: a press of the left button (in a frame of its own,
or at the head of the first motion frame), one frame for each pointer motion,
and a frame with the release. -/
def drag_frames (own_frame : Bool) (m0 : Int × Int) (rest : List (Int × Int)) :
    List (List Event) :=
  match own_frame with
  | true =>
    [Event.MOUSEBUTTONDOWN SDL_BUTTON_LEFT] :: [Event.MOUSEMOTION m0.1 m0.2] ::
      (rest.map (fun m => [Event.MOUSEMOTION m.1 m.2]) ++ [[Event.MOUSEBUTTONUP SDL_BUTTON_LEFT]])
  | false =>
    [Event.MOUSEBUTTONDOWN SDL_BUTTON_LEFT, Event.MOUSEMOTION m0.1 m0.2] ::
      (rest.map (fun m => [Event.MOUSEMOTION m.1 m.2]) ++ [[Event.MOUSEBUTTONUP SDL_BUTTON_LEFT]])

/-- Edit mode before any toggle: every cell `DEAD`, current and last toggled
cell both the slot 0. -/
def idle_state (s : State) : Prop :=
  well_formed s ∧ s.active_state = active_fn.edit ∧ s.running ≠ 0 ∧
  s.current_cell = 0 ∧ s.changed_cell = 0 ∧
  ∀ p, p < CELL_COUNT → state_idx s.cells p = some DEAD

/-- Edit mode after the toggle of slot `c`: only `c` is `ALIVE`, and `c` is both
the current and the last toggled cell. -/
def toggled_state (c : Nat) (s : State) : Prop :=
  well_formed s ∧ s.active_state = active_fn.edit ∧ s.running ≠ 0 ∧
  s.current_cell = c ∧ s.changed_cell = c ∧
  ∀ p, p < CELL_COUNT → state_idx s.cells p = some (if p = c then ALIVE else DEAD)

/-- The state `edit` leaves behind (`main.c` lines 233–238) when no access fails. -/
def edit_result (s : State) : State :=
  if s.left_btn ≠ 0 then
    { s with cells := if s.current_cell ≠ s.changed_cell then flip_idx s.cells s.current_cell
                      else s.cells,
             changed_cell := s.current_cell }
  else s

/-- The state after an accepted pointer motion to cell `(cx, cy)`
(`main.c` lines 185–191), `cells'` being the array with the hover flags moved. -/
def moved (s : State) (cells' : List cell_t) (cx cy : Nat) : State :=
  { s with cells := cells', mouse_x := cx, mouse_y := cy,
           current_cell := cy * CELL_ROWS + cx, previous_cell := cy * CELL_ROWS + cx }

/-- The state after `left_btn = 1` (`main.c` line 195). -/
def pressed (s : State) : State := { s with left_btn := 1 }

/-- The state after `left_btn = 0` (`main.c` line 201). -/
def released (s : State) : State := { s with left_btn := 0 }

/-! ## Basic facts -/

theorem CELL_ROWS_eq : CELL_ROWS = 120 := by decide
theorem CELL_COLS_eq : CELL_COLS = 80 := by decide
theorem CELL_COUNT_eq : CELL_COUNT = 10004 := by decide
theorem SIZE_MOD_eq : SIZE_MOD = 18446744073709551616 := by decide
theorem to_size_t_neg_one : to_size_t (-1) = 18446744073709551615 := by decide
theorem to_size_t_zero : to_size_t 0 = 0 := by decide
theorem to_size_t_one : to_size_t 1 = 1 := by decide

theorem nbr_index_eq (x y : Nat) (j i : Int) (hx : 1 ≤ x ∧ x ≤ 120) (hy : 1 ≤ y ∧ y ≤ 80)
    (hj : j = -1 ∨ j = 0 ∨ j = 1) (hi : i = -1 ∨ i = 0 ∨ i = 1) :
    ((nbr_index x y j i : Nat) : Int) = (x + j) + (y + i) * 120 := by
  rcases hj with rfl | rfl | rfl <;> rcases hi with rfl | rfl | rfl <;>
    simp only [nbr_index, CELL_ROWS_eq, SIZE_MOD_eq, to_size_t_neg_one, to_size_t_zero, to_size_t_one] <;>
    omega

theorem rd_some (cells : List cell_t) (p : Nat) (h : p < cells.length) :
    ∃ c, rd cells p = some c := ⟨cells[p], by simp [rd, h]⟩

theorem state_at_nbr (cells : List cell_t) (x y : Nat) (j i : Int)
    (hx : 1 ≤ x ∧ x ≤ 120) (hy : 1 ≤ y ∧ y ≤ 80)
    (hj : j = -1 ∨ j = 0 ∨ j = 1) (hi : i = -1 ∨ i = 0 ∨ i = 1) :
    state_at cells (x + j) (y + i) = (rd cells (nbr_index x y j i)).map (fun c => c.state) := by
  have h := nbr_index_eq x y j i hx hy hj hi
  have : ((x : Int) + j + (y + i) * (CELL_ROWS : Nat)).toNat = nbr_index x y j i := by
    rw [CELL_ROWS_eq]; push_cast; omega
  simp only [state_at, this]

theorem ite_some_succ (c : Prop) [Decidable c] (s : Nat) :
    (if c then some (s + 1) else some s) = some (s + if c then 1 else 0) := by
  split <;> rfl

theorem get_alive_neighbours_eq (cells : List cell_t) (x y : Nat)
    (hlen : cells.length = CELL_COUNT) (hx : 1 ≤ x ∧ x ≤ 120) (hy : 1 ≤ y ∧ y ≤ 80) :
    get_alive_neighbours cells x y = some (alive_count cells x y) := by
  have key : ∀ j i : Int, (j = -1 ∨ j = 0 ∨ j = 1) → (i = -1 ∨ i = 0 ∨ i = 1) →
      ∃ c, rd cells (nbr_index x y j i) = some c ∧ state_at cells (x + j) (y + i) = some c.state := by
    intro j i hj hi
    have h := nbr_index_eq x y j i hx hy hj hi
    have hb : nbr_index x y j i < cells.length := by
      rw [hlen, CELL_COUNT_eq]
      rcases hj with rfl | rfl | rfl <;> rcases hi with rfl | rfl | rfl <;> omega
    obtain ⟨c, hc⟩ := rd_some cells _ hb
    exact ⟨c, hc, by rw [state_at_nbr cells x y j i hx hy hj hi, hc]; rfl⟩
  obtain ⟨c1, h1, e1⟩ := key (-1) (-1) (by simp) (by simp)
  obtain ⟨c2, h2, e2⟩ := key 0 (-1) (by simp) (by simp)
  obtain ⟨c3, h3, e3⟩ := key 1 (-1) (by simp) (by simp)
  obtain ⟨c4, h4, e4⟩ := key (-1) 0 (by simp) (by simp)
  obtain ⟨c5, h5, e5⟩ := key 1 0 (by simp) (by simp)
  obtain ⟨c6, h6, e6⟩ := key (-1) 1 (by simp) (by simp)
  obtain ⟨c7, h7, e7⟩ := key 0 1 (by simp) (by simp)
  obtain ⟨c8, h8, e8⟩ := key 1 1 (by simp) (by simp)
  simp only [alive_count, moore_offsets, List.countP_cons, List.countP_nil, e1, e2, e3, e4, e5, e6, e7, e8]
  simp only [get_alive_neighbours, List.foldlM]
  simp [h1, h2, h3, h4, h5, h6, h7, h8, ite_some_succ]
  omega

theorem cell_index_eq (j i : Nat) (hj : j ≤ 121) (hi : i ≤ 81) :
    cell_index j i = j + i * 120 := by
  simp only [cell_index, CELL_ROWS_eq, SIZE_MOD_eq]
  omega

theorem wr_some (a : List cell_t) (p : Nat) (v : cell_t) (h : p < a.length) :
    wr a p v = some (a.set p v) := by simp [wr, h]

theorem simulate_cell_eq (cells nc : List cell_t) (i j : Nat)
    (hlen : cells.length = CELL_COUNT) (hn : nc.length = CELL_COUNT)
    (hj : 1 ≤ j ∧ j ≤ 120) (hi : 1 ≤ i ∧ i ≤ 80) :
    ∃ c, cells[j + i * 120]? = some c ∧
      simulate_cell cells i j nc = some (nc.set (j + i * 120) (next_cell cells (j + i * 120) c)) := by
  have hb : j + i * 120 < cells.length := by rw [hlen, CELL_COUNT_eq]; omega
  have hb2 : j + i * 120 < nc.length := by rw [hn, CELL_COUNT_eq]; omega
  obtain ⟨c, hc⟩ : ∃ c, cells[j + i * 120]? = some c := ⟨cells[j + i * 120], by simp [hb]⟩
  refine ⟨c, hc, ?_⟩
  have hcol : col_of (j + i * 120) = j := by simp only [col_of]; omega
  have hrow : row_of (j + i * 120) = i := by simp only [row_of]; omega
  simp only [simulate_cell, cell_index_eq j i (by omega) (by omega),
    get_alive_neighbours_eq cells j i hlen hj hi, Option.some_bind, next_cell, hcol, hrow,
    rd, hc, wr_some nc _ _ hb2, set_state, wr, List.length_set, hb2,
    if_true, List.getElem?_set_self hb2, List.set_set]
  obtain ⟨ps, st, hv⟩ := c
  cases st <;> simp only [next_state] <;> split_ifs <;> simp_all

theorem forRange_inv {σ : Type} (I : Nat → σ → Prop) (body : Nat → σ → Option σ) :
    ∀ (n lo : Nat) (s : σ), I lo s →
      (∀ k t, lo ≤ k → k < lo + n → I k t → ∃ t', body k t = some t' ∧ I (k + 1) t') →
      ∃ s', forRange lo n body s = some s' ∧ I (lo + n) s' := by
  intro n
  induction n with
  | zero => intro lo s h0 _; exact ⟨s, rfl, by simpa using h0⟩
  | succ n ih =>
    intro lo s h0 hstep
    obtain ⟨t, ht, hI⟩ := hstep lo s (le_refl _) (by omega) h0
    obtain ⟨s', hs', hI'⟩ := ih (lo + 1) t hI (fun k u h1 h2 hu => hstep k u (by omega) (by omega) hu)
    refine ⟨s', ?_, ?_⟩
    · simp [forRange, ht, hs']
    · have : lo + (n + 1) = lo + 1 + n := by omega
      rw [this]; exact hI'

/-- Sweep invariant: the interior loops visit the indices `121, 122, …` in
increasing order; `I q` speaks of the state when all indices below `q` are done. -/
theorem forInterior_sweep {σ : Type} (I : Nat → σ → Prop) (body : Nat → Nat → σ → Option σ)
    (s : σ) (h0 : I 121 s)
    (hstep : ∀ i j t, 1 ≤ i → i ≤ 80 → 1 ≤ j → j ≤ 120 → I (j + i * 120) t →
      ∃ t', body i j t = some t' ∧ I (j + i * 120 + 1) t') :
    ∃ s', forInterior body s = some s' ∧ I 9721 s' := by
  have houter := forRange_inv (fun i t => I (1 + i * 120) t)
    (fun i => forRange CELLS_X (CELL_ROWS + CELLS_X - CELLS_X) (fun j => body i j))
    80 1 s (by simpa using h0) (by
      intro i t hi1 hi2 hI
      have hinner := forRange_inv (fun j t => I (j + i * 120) t) (fun j => body i j)
        120 1 t hI (by
          intro j u hj1 hj2 hu
          obtain ⟨u', hu', hI'⟩ := hstep i j u hi1 (by omega) hj1 (by omega) hu
          have e : j + 1 + i * 120 = j + i * 120 + 1 := by omega
          exact ⟨u', hu', by simpa only [e] using hI'⟩)
      obtain ⟨t', ht', hI'⟩ := hinner
      refine ⟨t', ?_, ?_⟩
      · simpa [CELLS_X, CELL_ROWS_eq] using ht'
      · have : 1 + (i + 1) * 120 = 1 + 120 + i * 120 := by ring
        simp only [this]; exact hI')
  obtain ⟨s', hs', hI⟩ := houter
  exact ⟨s', by simpa [forInterior, CELLS_Y, CELL_COLS_eq] using hs', by simpa using hI⟩

theorem sweep_step (f g : Nat → Option cell_t) (t : List cell_t) (q : Nat) (v : cell_t)
    (hb : q < t.length) (hq : 121 ≤ q) (hv : f q = some v)
    (htp : ∀ p, t[p]? = if 121 ≤ p ∧ p < q then f p else g p) :
    ∀ p, (t.set q v)[p]? = if 121 ≤ p ∧ p < q + 1 then f p else g p := by
  intro p
  by_cases hp : p = q
  · subst hp
    rw [List.getElem?_set_self hb, if_pos (by omega), hv]
  · rw [List.getElem?_set_ne (Ne.symm hp), htp p]
    by_cases h1 : 121 ≤ p ∧ p < q
    · rw [if_pos h1, if_pos (by omega)]
    · rw [if_neg h1, if_neg (by omega)]

theorem simulate_cells_eq (cells : List cell_t) (hlen : cells.length = CELL_COUNT) :
    ∃ cells', simulate_cells cells = some cells' ∧ cells'.length = CELL_COUNT ∧
      ∀ p, cells'[p]? =
        if 121 ≤ p ∧ p < 9721 then (cells[p]?).map (next_cell cells p) else cells[p]? := by
  obtain ⟨nc, hnc, hnl, hnp⟩ := forInterior_sweep
    (fun q (t : List cell_t) => t.length = CELL_COUNT ∧ ∀ p, t[p]? =
        if 121 ≤ p ∧ p < q then (cells[p]?).map (next_cell cells p) else cells[p]?)
    (simulate_cell cells) cells ⟨hlen, fun p => by rw [if_neg (by omega)]⟩ (by
      intro i j t hi1 hi2 hj1 hj2 ⟨htl, htp⟩
      obtain ⟨c, hc, hstep⟩ := simulate_cell_eq cells t i j hlen htl ⟨hj1, hj2⟩ ⟨hi1, hi2⟩
      have hb : j + i * 120 < t.length := by rw [htl, CELL_COUNT_eq]; omega
      exact ⟨_, hstep, by rw [List.length_set]; exact htl,
        sweep_step _ _ t _ _ hb (by omega) (by rw [hc]; rfl) htp⟩)
  obtain ⟨cs, hcs, hcl, hcp⟩ := forInterior_sweep
    (fun q (t : List cell_t) => t.length = CELL_COUNT ∧ ∀ p, t[p]? =
        if 121 ≤ p ∧ p < q then nc[p]? else cells[p]?)
    (commit_cell nc) cells ⟨hlen, fun p => by rw [if_neg (by omega)]⟩ (by
      intro i j t hi1 hi2 hj1 hj2 ⟨htl, htp⟩
      have hb : j + i * 120 < t.length := by rw [htl, CELL_COUNT_eq]; omega
      have hb2 : j + i * 120 < nc.length := by rw [hnl, CELL_COUNT_eq]; omega
      refine ⟨t.set (j + i * 120) nc[j + i * 120], ?_, by rw [List.length_set]; exact htl,
        sweep_step _ _ t _ _ hb (by omega) (List.getElem?_eq_getElem hb2) htp⟩
      simp [commit_cell, cell_index_eq j i (by omega) (by omega), rd, wr, hb, hb2])
  refine ⟨cs, by rw [simulate_cells, hnc, Option.some_bind, hcs], hcl, ?_⟩
  intro p
  rw [hcp p]
  by_cases h1 : 121 ≤ p ∧ p < 9721
  · rw [if_pos h1, if_pos h1, hnp p, if_pos h1]
  · rw [if_neg h1, if_neg h1]
theorem state_at_interior (cells : List cell_t) (x y : Nat) (hx : x ≤ 121) (hy : y ≤ 81) :
    state_at cells x y = state_idx cells (x + y * 120) := by
  have : ((x : Int) + y * (CELL_ROWS : Nat)).toNat = x + y * 120 := by
    rw [CELL_ROWS_eq]; push_cast; omega
  simp only [state_at, this, state_idx, rd]

theorem simulate_interior (cells : List cell_t) (hlen : cells.length = CELL_COUNT) :
    ∃ cells', simulate_cells cells = some cells' ∧ cells'.length = CELL_COUNT ∧
      ∀ x y : Nat, 1 ≤ x → x ≤ 120 → 1 ≤ y → y ≤ 80 →
        ∃ s, state_at cells x y = some s ∧
          state_at cells' x y = some (next_state s (alive_count cells x y)) := by
  obtain ⟨cells', h1, h2, h3⟩ := simulate_cells_eq cells hlen
  refine ⟨cells', h1, h2, ?_⟩
  intro x y hx1 hx2 hy1 hy2
  have hb : x + y * 120 < cells.length := by rw [hlen, CELL_COUNT_eq]; omega
  refine ⟨(cells[x + y * 120]).state, ?_, ?_⟩
  · rw [state_at_interior cells x y (by omega) (by omega)]
    simp [state_idx, hb]
  · rw [state_at_interior cells' x y (by omega) (by omega), state_idx, h3, if_pos (by omega)]
    have hcol : col_of (x + y * 120) = x := by simp only [col_of]; omega
    have hrow : row_of (x + y * 120) = y := by simp only [row_of]; omega
    simp [hb, next_cell, hcol, hrow]

theorem zero_state_length : zero_state.cells.length = CELL_COUNT :=
  List.length_replicate _ _

theorem draw_cells_some (cells : List cell_t) (hlen : cells.length = CELL_COUNT) :
    draw_cells cells = some () := by
  obtain ⟨u, hu, _⟩ := forInterior_sweep (fun _ (_ : Unit) => True)
    (fun i j _ => (rd cells (cell_index j i)).bind (fun _cell => some ())) () trivial (by
      intro i j t hi1 hi2 hj1 hj2 _
      have hb : j + i * 120 < cells.length := by rw [hlen, CELL_COUNT_eq]; omega
      exact ⟨(), by simp [cell_index_eq j i (by omega) (by omega), rd, hb], trivial⟩)
  simpa [draw_cells] using hu

theorem init_cells_eq :
    ∃ cells, init_cells = some cells ∧ cells.length = CELL_COUNT ∧
      ∀ p, p < CELL_COUNT → ∃ c, cells[p]? = some c ∧ c.state = DEAD ∧ c.hovered = 0 := by
  obtain ⟨cs, h1, h2, h3⟩ := forInterior_sweep
    (fun _ (t : List cell_t) => t.length = CELL_COUNT ∧
      ∀ p, p < CELL_COUNT → ∃ c, t[p]? = some c ∧ c.state = DEAD ∧ c.hovered = 0)
    (fun i j cells =>
      wr cells (cell_index j i)
        { pos := ((j - CELLS_X) * CELL_W, (i - CELLS_Y) * CELL_H), state := DEAD, hovered := 0 })
    (List.replicate CELL_COUNT zero_cell)
    ⟨by simp, by intro p hp; exact ⟨zero_cell, by simp [hp], rfl, rfl⟩⟩ (by
      intro i j t hi1 hi2 hj1 hj2 ⟨htl, htp⟩
      have hb : j + i * 120 < t.length := by rw [htl, CELL_COUNT_eq]; omega
      refine ⟨t.set (j + i * 120)
          { pos := ((j - CELLS_X) * CELL_W, (i - CELLS_Y) * CELL_H), state := DEAD, hovered := 0 },
        ?_, by rw [List.length_set]; exact htl, ?_⟩
      · show wr t (cell_index j i) _ = _
        rw [cell_index_eq j i (by omega) (by omega)]
        exact wr_some t _ _ hb
      · intro p hp
        by_cases h : p = j + i * 120
        · subst h
          exact ⟨_, List.getElem?_set_self hb, rfl, rfl⟩
        · rw [List.getElem?_set_ne (Ne.symm h)]
          exact htp p hp)
  exact ⟨cs, h1, h2, h3⟩


theorem CELL_W_eq : CELL_W = 10 := rfl
theorem CELL_H_eq : CELL_H = 10 := rfl

theorem tdiv_ten (a : Int) : Int.tdiv a 10 = if 0 ≤ a then a / 10 else -((-a) / 10) := by
  split
  · next h => exact Int.tdiv_eq_ediv h (by decide)
  · next h =>
    have h2 : Int.tdiv (-(-a)) 10 = -(Int.tdiv (-a) 10) := Int.neg_tdiv (-a) 10
    rw [neg_neg] at h2
    rw [h2, Int.tdiv_eq_ediv (by omega) (by decide)]

/-- The cell coordinate computed from a pixel coordinate: for an `Sint32` pixel
it is the truncated quotient when that lies in `[0, bound]`, and a value above
`bound` otherwise. -/
theorem pixel_to_cell (px : Int) (bound : Nat) (hb : bound ≤ 121)
    (h1 : -(2 ^ 31) ≤ px) (h2 : px < 2 ^ 31) :
    (0 ≤ Int.tdiv (px + 10) 10 ∧ Int.tdiv (px + 10) 10 ≤ bound →
      (to_size_t (Int.tdiv (wrap_int (px + 10)) 10) : Int) = Int.tdiv (px + 10) 10) ∧
    (¬ (0 ≤ Int.tdiv (px + 10) 10 ∧ Int.tdiv (px + 10) 10 ≤ bound) →
      bound < to_size_t (Int.tdiv (wrap_int (px + 10)) 10)) := by
  simp only [tdiv_ten, to_size_t, wrap_int, SIZE_MOD_eq]
  norm_num
  constructor
  · intro h3 h4
    split_ifs at h3 h4 ⊢ <;> omega
  · intro h3
    split_ifs at h3 ⊢ <;> omega

theorem state_idx_set (cells : List cell_t) (p q : Nat) (v : cell_t) (hp : p < cells.length) :
    state_idx (cells.set p v) q = if q = p then some v.state else state_idx cells q := by
  unfold state_idx
  by_cases h : q = p
  · subst h; rw [List.getElem?_set_self hp, if_pos rfl]; rfl
  · rw [List.getElem?_set_ne (Ne.symm h), if_neg h]

theorem state_idx_set_same_state (cells : List cell_t) (p q : Nat) (c v : cell_t)
    (hc : cells[p]? = some c) (hv : v.state = c.state) :
    state_idx (cells.set p v) q = state_idx cells q := by
  have hp : p < cells.length := by
    by_contra h
    rw [List.getElem?_eq_none (by omega)] at hc
    cases hc
  rw [state_idx_set cells p q v hp]
  split
  · next h => subst h; simp only [state_idx, hc, hv, Option.map_some']
  · rfl

theorem mouse_motion_accept (s : State) (x y : Int) (cx cy : Nat)
    (hcx : to_size_t (Int.tdiv (wrap_int (x + 10)) 10) = cx)
    (hcy : to_size_t (Int.tdiv (wrap_int (y + 10)) 10) = cy)
    (hx : cx ≤ 121) (hy : cy ≤ 81)
    (hlen : s.cells.length = CELL_COUNT) (hprev : s.previous_cell < CELL_COUNT) :
    ∃ cells', mouse_motion s x y = some (moved s cells' cx cy, false) ∧
      cells'.length = CELL_COUNT ∧ ∀ p, state_idx cells' p = state_idx s.cells p := by
  have hb1 : s.previous_cell < s.cells.length := by omega
  obtain ⟨c1, hc1⟩ : ∃ c, s.cells[s.previous_cell]? = some c :=
    ⟨_, List.getElem?_eq_getElem hb1⟩
  have hl2 : (s.cells.set s.previous_cell { c1 with hovered := 0 }).length = CELL_COUNT := by
    rw [List.length_set]; exact hlen
  have hb2 : cy * 120 + cx < (s.cells.set s.previous_cell { c1 with hovered := 0 }).length := by
    rw [hl2, CELL_COUNT_eq]; omega
  obtain ⟨c2, hc2⟩ : ∃ c, (s.cells.set s.previous_cell { c1 with hovered := 0 })[cy * 120 + cx]? = some c :=
    ⟨_, List.getElem?_eq_getElem hb2⟩
  refine ⟨(s.cells.set s.previous_cell { c1 with hovered := 0 }).set (cy * 120 + cx)
      { c2 with hovered := 1 }, ?_, by rw [List.length_set]; exact hl2, ?_⟩
  · have hcond : ¬ (cy < 0 ∨ cy ≥ 80 + 2 ∨ cx < 0 ∨ cx ≥ 120 + 2) := by omega
    unfold mouse_motion moved
    simp only [CELL_W_eq, CELL_H_eq, Nat.cast_ofNat, hcx, hcy, CELL_ROWS_eq, CELL_COLS_eq,
      if_neg hcond, rd, hc1, Option.some_bind, wr, hb1, if_true, hc2, hb2]
  · intro p
    rw [state_idx_set_same_state _ _ p c2 { c2 with hovered := 1 } hc2 rfl,
      state_idx_set_same_state _ _ p c1 { c1 with hovered := 0 } hc1 rfl]

theorem mouse_motion_reject (s : State) (x y : Int) (cx cy : Nat)
    (hcx : to_size_t (Int.tdiv (wrap_int (x + 10)) 10) = cx)
    (hcy : to_size_t (Int.tdiv (wrap_int (y + 10)) 10) = cy)
    (h : 121 < cx ∨ 81 < cy) :
    mouse_motion s x y = some (s, true) := by
  have hcond : cy < 0 ∨ cy ≥ 80 + 2 ∨ cx < 0 ∨ cx ≥ 120 + 2 := by omega
  unfold mouse_motion
  simp only [CELL_W_eq, CELL_H_eq, Nat.cast_ofNat, hcx, hcy, CELL_ROWS_eq, CELL_COLS_eq,
    if_pos hcond]

theorem flip_idx_length (cells : List cell_t) (p : Nat) :
    (flip_idx cells p).length = cells.length := by
  unfold flip_idx
  split
  · rw [List.length_set]
  · rfl

theorem state_idx_flip (cells : List cell_t) (p q : Nat) (hp : p < cells.length) :
    state_idx (flip_idx cells p) q =
      if q = p then (state_idx cells p).map alive_minus else state_idx cells q := by
  unfold flip_idx
  rw [List.getElem?_eq_getElem hp]
  show state_idx (cells.set p _) q = _
  rw [state_idx_set _ _ _ _ hp]
  by_cases h : q = p
  · rw [if_pos h, if_pos h, state_idx, List.getElem?_eq_getElem hp]; rfl
  · rw [if_neg h, if_neg h]

theorem edit_eq (s : State) (hlen : s.cells.length = CELL_COUNT)
    (hcur : s.current_cell < CELL_COUNT) :
    edit s = some (edit_result s) := by
  have hb : s.current_cell < s.cells.length := by omega
  unfold edit edit_result
  by_cases hl : s.left_btn ≠ 0
  · by_cases hc : s.current_cell ≠ s.changed_cell
    · have hfl : (flip_idx s.cells s.current_cell).length = CELL_COUNT := by
        rw [flip_idx_length]; exact hlen
      simp only [if_pos hl, if_pos hc, rd, wr, List.getElem?_eq_getElem hb, Option.some_bind, hb,
        if_true]
      have e : s.cells.set s.current_cell
          { s.cells[s.current_cell] with state := alive_minus (s.cells[s.current_cell]).state } =
          flip_idx s.cells s.current_cell := by
        unfold flip_idx
        rw [List.getElem?_eq_getElem hb]
      rw [e, draw_cells_some _ hfl, Option.some_bind]
    · simp only [if_pos hl, if_neg hc, Option.some_bind, draw_cells_some _ hlen]
  · simp only [if_neg hl, Option.some_bind, draw_cells_some _ hlen]

theorem pixel_accept (px : Int) (bound : Nat) (hb : bound ≤ 121)
    (h1 : -(2 ^ 31) ≤ px) (h2 : px < 2 ^ 31)
    (h3 : 0 ≤ Int.tdiv (px + 10) 10) (h4 : Int.tdiv (px + 10) 10 ≤ bound) :
    (to_size_t (Int.tdiv (wrap_int (px + 10)) 10) : Int) = Int.tdiv (px + 10) 10 :=
  (pixel_to_cell px bound hb h1 h2).1 ⟨h3, h4⟩

theorem pixel_reject (px : Int) (bound : Nat) (hb : bound ≤ 121)
    (h1 : -(2 ^ 31) ≤ px) (h2 : px < 2 ^ 31)
    (h3 : Int.tdiv (px + 10) 10 < 0 ∨ (bound : Int) < Int.tdiv (px + 10) 10) :
    bound < to_size_t (Int.tdiv (wrap_int (px + 10)) 10) :=
  (pixel_to_cell px bound hb h1 h2).2 (fun h => by omega)

theorem zero_state_wf : well_formed zero_state :=
  ⟨zero_state_length, by rw [CELL_COUNT_eq]; exact Nat.zero_lt_succ _,
    by rw [CELL_COUNT_eq]; exact Nat.zero_lt_succ _⟩


theorem init_eq :
    ∃ cells, init = some (start_state cells) ∧
      cells.length = CELL_COUNT ∧ ∀ p, p < CELL_COUNT → state_idx cells p = some DEAD := by
  obtain ⟨cells, h1, h2, h3⟩ := init_cells_eq
  refine ⟨cells, by rw [init, h1, Option.some_bind], h2, ?_⟩
  intro p hp
  obtain ⟨c, hc, hs, _⟩ := h3 p hp
  rw [state_idx, hc, Option.map_some', hs]

theorem start_state_wf (cells : List cell_t) (hlen : cells.length = CELL_COUNT) :
    well_formed (start_state cells) :=
  ⟨hlen, by rw [CELL_COUNT_eq]; exact Nat.zero_lt_succ _,
    by rw [CELL_COUNT_eq]; exact Nat.zero_lt_succ _⟩

theorem state_at_idx (cells : List cell_t) (x y : Nat) (p : Nat) (hx : x ≤ 121) (hy : y ≤ 81)
    (hp : p = x + y * 120) : state_at cells x y = state_idx cells p := by
  rw [hp]; exact state_at_interior cells x y hx hy

theorem poll_nil (s : State) : poll_events s [] = some (s, []) := rfl

theorem poll_cons_continue (s s' : State) (e : Event) (q : List Event)
    (h : handle_event s e = some (s', false)) :
    poll_events s (e :: q) = poll_events s' q := by
  rw [poll_events, h, Option.some_bind]
  rfl

theorem poll_cons_break (s s' : State) (e : Event) (q : List Event)
    (h : handle_event s e = some (s', true)) :
    poll_events s (e :: q) = some (s', q) := by
  rw [poll_events, h, Option.some_bind]
  rfl

theorem handle_down (s : State) :
    handle_event s (Event.MOUSEBUTTONDOWN SDL_BUTTON_LEFT) = some (pressed s, false) := by
  rw [handle_event, if_pos rfl]; rfl

theorem handle_up (s : State) :
    handle_event s (Event.MOUSEBUTTONUP SDL_BUTTON_LEFT) = some (released s, false) := by
  rw [handle_event, if_pos rfl]; rfl

theorem handle_motion (s : State) (x y : Int) :
    handle_event s (Event.MOUSEMOTION x y) = mouse_motion s x y := rfl

theorem call_edit (s : State) (hwf : well_formed s) (he : s.active_state = active_fn.edit) :
    call_active_state s = some (edit_result s) := by
  rw [call_active_state, he]
  exact edit_eq s hwf.1 hwf.2.2

theorem frame_edit (s s1 : State) (q q1 : List Event)
    (hp : poll_events s q = some (s1, q1)) (hwf : well_formed s1)
    (he : s1.active_state = active_fn.edit) :
    frame s q = some (edit_result s1, q1) := by
  rw [frame, hp, Option.some_bind, call_edit s1 hwf he, Option.some_bind]


theorem edit_result_cells_held (s : State) (h : s.left_btn ≠ 0) :
    (edit_result s).cells =
      if s.current_cell ≠ s.changed_cell then flip_idx s.cells s.current_cell else s.cells := by
  rw [edit_result, if_pos h]

theorem edit_result_changed (s : State) (h : s.left_btn ≠ 0) :
    (edit_result s).changed_cell = s.current_cell := by
  rw [edit_result, if_pos h]

theorem edit_result_current (s : State) : (edit_result s).current_cell = s.current_cell := by
  unfold edit_result
  split <;> rfl

theorem edit_result_cells_same (s : State) (h : s.current_cell = s.changed_cell) :
    (edit_result s).cells = s.cells := by
  unfold edit_result
  split
  · show (if s.current_cell ≠ s.changed_cell then _ else _) = _
    rw [if_neg (fun hh => hh h)]
  · rfl

theorem edit_result_up (s : State) (h : s.left_btn = 0) : edit_result s = s := by
  rw [edit_result, if_neg (fun hh => hh h)]

theorem edit_result_wf (s : State) (hwf : well_formed s) : well_formed (edit_result s) := by
  unfold edit_result
  split
  · refine ⟨?_, hwf.2.1, hwf.2.2⟩
    show (if s.current_cell ≠ s.changed_cell then flip_idx s.cells s.current_cell
      else s.cells).length = CELL_COUNT
    split
    · rw [flip_idx_length]; exact hwf.1
    · exact hwf.1
  · exact hwf

theorem edit_result_active (s : State) : (edit_result s).active_state = s.active_state := by
  unfold edit_result
  split <;> rfl

theorem frame_down (s : State) (hwf : well_formed s) (he : s.active_state = active_fn.edit) :
    frame s [Event.MOUSEBUTTONDOWN SDL_BUTTON_LEFT] = some (edit_result (pressed s), []) :=
  frame_edit s (pressed s) _ _
    ((poll_cons_continue _ _ _ _ (handle_down s)).trans (poll_nil _)) hwf he

theorem frame_up (s : State) (hwf : well_formed s) (he : s.active_state = active_fn.edit) :
    frame s [Event.MOUSEBUTTONUP SDL_BUTTON_LEFT] = some (released s, []) := by
  have h := frame_edit s (released s) _ _
    ((poll_cons_continue _ _ _ _ (handle_up s)).trans (poll_nil _)) hwf he
  rw [edit_result_up (released s) rfl] at h
  exact h

/-- Press, release, press again with the pointer at rest: the states after the
three frames. -/
theorem press_release_press (s : State) (hwf : well_formed s)
    (he : s.active_state = active_fn.edit) :
    frame s [Event.MOUSEBUTTONDOWN SDL_BUTTON_LEFT] = some (edit_result (pressed s), []) ∧
    frame (edit_result (pressed s)) [Event.MOUSEBUTTONUP SDL_BUTTON_LEFT]
      = some (released (edit_result (pressed s)), []) ∧
    frame (released (edit_result (pressed s))) [Event.MOUSEBUTTONDOWN SDL_BUTTON_LEFT]
      = some (edit_result (pressed (released (edit_result (pressed s)))), []) ∧
    (edit_result (pressed (released (edit_result (pressed s))))).cells
      = (edit_result (pressed s)).cells ∧
    (released (edit_result (pressed s))).cells = (edit_result (pressed s)).cells ∧
    (edit_result (pressed s)).cells =
      if s.current_cell ≠ s.changed_cell then flip_idx s.cells s.current_cell else s.cells := by
  have hwf1 : well_formed (edit_result (pressed s)) := edit_result_wf _ hwf
  have he1 : (edit_result (pressed s)).active_state = active_fn.edit :=
    (edit_result_active _).trans he
  have hp : (pressed s).left_btn ≠ 0 := Nat.succ_ne_zero 0
  refine ⟨frame_down s hwf he, frame_up _ hwf1 he1, frame_down _ hwf1 he1, ?_, rfl, ?_⟩
  · rw [edit_result_cells_same]
    · rfl
    · show (edit_result (pressed s)).current_cell = (edit_result (pressed s)).changed_cell
      rw [edit_result_current, edit_result_changed _ hp]
  · exact edit_result_cells_held (pressed s) hp


theorem simulate_delay_eq (start_time end_time : Nat) (h1 : start_time ≤ end_time)
    (h2 : end_time < 2 ^ 32) :
    simulate_delay start_time end_time =
      if 18 ≤ end_time - start_time then
        some (Int.toNat ⌊(((end_time - start_time : Nat) : ℚ) / 1000 - 1 / 60) * 1000⌋)
      else none := by
  have e : (end_time + 2 ^ 32 - start_time) % 2 ^ 32 = end_time - start_time := by omega
  unfold simulate_delay
  simp only [e]
  have key : ((((end_time - start_time : Nat) : ℚ) / 1000 - 1 / 60) > 1 / 1000) ↔
      18 ≤ end_time - start_time := by
    generalize end_time - start_time = d
    constructor
    · intro h
      have h' : (d : ℚ) > 53 / 3 := by linarith
      have h'' : (53 : ℚ) < 3 * d := by linarith
      have : (53 : ℕ) < 3 * d := by exact_mod_cast h''
      omega
    · intro h
      have : (18 : ℚ) ≤ d := by exact_mod_cast h
      linarith
  by_cases h : 18 ≤ end_time - start_time
  · rw [if_pos (key.2 h), if_pos h]
  · rw [if_neg (fun hh => h (key.1 hh)), if_neg h]


theorem moved_wf (s : State) (cells' : List cell_t) (cx cy : Nat)
    (hlen : cells'.length = CELL_COUNT) (hx : cx ≤ 121) (hy : cy ≤ 81) :
    well_formed (moved s cells' cx cy) := by
  refine ⟨hlen, ?_, ?_⟩ <;>
  · show cy * CELL_ROWS + cx < CELL_COUNT
    rw [CELL_ROWS_eq, CELL_COUNT_eq]; omega

/-- A frame whose events are an accepted motion to `(cx, cy)` followed by any
of the listed continuations. -/
theorem poll_motion (s : State) (x y : Int) (cx cy : Nat) (q : List Event)
    (hcx : to_size_t (Int.tdiv (wrap_int (x + 10)) 10) = cx)
    (hcy : to_size_t (Int.tdiv (wrap_int (y + 10)) 10) = cy)
    (hx : cx ≤ 121) (hy : cy ≤ 81) (hwf : well_formed s) :
    ∃ cells', poll_events s (Event.MOUSEMOTION x y :: q) = poll_events (moved s cells' cx cy) q ∧
      cells'.length = CELL_COUNT ∧ ∀ p, state_idx cells' p = state_idx s.cells p := by
  obtain ⟨cells', hm, hl, hs⟩ := mouse_motion_accept s x y cx cy hcx hcy hx hy hwf.1 hwf.2.1
  exact ⟨cells', poll_cons_continue _ _ _ _ ((handle_motion _ _ _).trans hm), hl, hs⟩

theorem frame_motion (s : State) (x y : Int) (cx cy : Nat)
    (hcx : to_size_t (Int.tdiv (wrap_int (x + 10)) 10) = cx)
    (hcy : to_size_t (Int.tdiv (wrap_int (y + 10)) 10) = cy)
    (hx : cx ≤ 121) (hy : cy ≤ 81) (hwf : well_formed s)
    (he : s.active_state = active_fn.edit) :
    ∃ cells', frame s [Event.MOUSEMOTION x y] = some (edit_result (moved s cells' cx cy), []) ∧
      cells'.length = CELL_COUNT ∧ ∀ p, state_idx cells' p = state_idx s.cells p := by
  obtain ⟨cells', hp, hl, hs⟩ := poll_motion s x y cx cy [] hcx hcy hx hy hwf
  exact ⟨cells', frame_edit s _ _ _ (hp.trans (poll_nil _)) (moved_wf s cells' cx cy hl hx hy) he,
    hl, hs⟩

theorem frame_motion_down (s : State) (x y : Int) (cx cy : Nat)
    (hcx : to_size_t (Int.tdiv (wrap_int (x + 10)) 10) = cx)
    (hcy : to_size_t (Int.tdiv (wrap_int (y + 10)) 10) = cy)
    (hx : cx ≤ 121) (hy : cy ≤ 81) (hwf : well_formed s)
    (he : s.active_state = active_fn.edit) :
    ∃ cells', frame s [Event.MOUSEMOTION x y, Event.MOUSEBUTTONDOWN SDL_BUTTON_LEFT]
        = some (edit_result (pressed (moved s cells' cx cy)), []) ∧
      cells'.length = CELL_COUNT ∧ ∀ p, state_idx cells' p = state_idx s.cells p := by
  obtain ⟨cells', hp, hl, hs⟩ := poll_motion s x y cx cy
    [Event.MOUSEBUTTONDOWN SDL_BUTTON_LEFT] hcx hcy hx hy hwf
  refine ⟨cells', frame_edit s _ _ _
    (hp.trans ((poll_cons_continue _ _ _ _ (handle_down _)).trans (poll_nil _)))
    (moved_wf s cells' cx cy hl hx hy) he, hl, hs⟩

theorem edit_result_mouse_x (s : State) : (edit_result s).mouse_x = s.mouse_x := by
  unfold edit_result
  split <;> rfl

theorem edit_result_mouse_y (s : State) : (edit_result s).mouse_y = s.mouse_y := by
  unfold edit_result
  split <;> rfl

/-- From the start state, a motion to cell `(cx, cy)` (not the cell of index 0)
with the button pressed in the same frame makes exactly that array slot `ALIVE`. -/
theorem first_toggle (cells : List cell_t) (x y : Int) (cx cy : Nat)
    (hcx : to_size_t (Int.tdiv (wrap_int (x + 10)) 10) = cx)
    (hcy : to_size_t (Int.tdiv (wrap_int (y + 10)) 10) = cy)
    (hx : cx ≤ 121) (hy : cy ≤ 81) (hne : cy * 120 + cx ≠ 0)
    (hlen : cells.length = CELL_COUNT)
    (hdead : ∀ p, p < CELL_COUNT → state_idx cells p = some DEAD) :
    ∃ s1, frame (start_state cells)
        [Event.MOUSEMOTION x y, Event.MOUSEBUTTONDOWN SDL_BUTTON_LEFT] = some (s1, []) ∧
      well_formed s1 ∧ s1.active_state = active_fn.edit ∧
      s1.mouse_x = cx ∧ s1.mouse_y = cy ∧
      s1.current_cell = cy * 120 + cx ∧ s1.changed_cell = cy * 120 + cx ∧
      ∀ p, p < CELL_COUNT →
        state_idx s1.cells p = some (if p = cy * 120 + cx then ALIVE else DEAD) := by
  obtain ⟨cells', hf, hl, hs⟩ := frame_motion_down (start_state cells) x y cx cy hcx hcy hx hy
    (start_state_wf cells hlen) rfl
  have hp : (pressed (moved (start_state cells) cells' cx cy)).left_btn ≠ 0 := Nat.succ_ne_zero 0
  have hb : cy * 120 + cx < cells'.length := by rw [hl, CELL_COUNT_eq]; omega
  have hs : ∀ p, state_idx cells' p = state_idx cells p := hs
  refine ⟨_, hf, edit_result_wf _ (moved_wf (start_state cells) cells' cx cy hl hx hy),
    (edit_result_active _).trans rfl, ?_, ?_, ?_, ?_, ?_⟩
  · rw [edit_result_mouse_x]; rfl
  · rw [edit_result_mouse_y]; rfl
  · rw [edit_result_current]; rfl
  · rw [edit_result_changed _ hp]; rfl
  · intro p hp'
    rw [edit_result_cells_held _ hp]
    show state_idx (if cy * CELL_ROWS + cx ≠ 0 then flip_idx cells' (cy * CELL_ROWS + cx)
      else cells') p = _
    rw [CELL_ROWS_eq, if_pos hne, state_idx_flip _ _ _ hb]
    by_cases h : p = cy * 120 + cx
    · rw [if_pos h, if_pos h, hs, ← h, hdead p hp']; rfl
    · rw [if_neg h, if_neg h, hs, hdead p hp']


theorem state_at_lit (cells : List cell_t) (x y : Int) (p : Nat)
    (h : (x + y * (CELL_ROWS : Nat)).toNat = p) : state_at cells x y = state_idx cells p := by
  rw [state_at, h]; rfl

/-- The neighbour count of the interior cell stored at index `p`, read off the
eight array slots around `p`. -/
theorem alive_count_idx (cells : List cell_t) (x y p : Nat)
    (hx : 1 ≤ x ∧ x ≤ 120) (hy : 1 ≤ y ∧ y ≤ 80) (hp : p = x + y * 120) :
    alive_count cells x y = alive_around cells p := by
  have e1 := state_at_lit cells (x + -1) (y + -1) (p - 121) (by rw [CELL_ROWS_eq]; push_cast; omega)
  have e2 := state_at_lit cells (x + 0) (y + -1) (p - 120) (by rw [CELL_ROWS_eq]; push_cast; omega)
  have e3 := state_at_lit cells (x + 1) (y + -1) (p - 119) (by rw [CELL_ROWS_eq]; push_cast; omega)
  have e4 := state_at_lit cells (x + -1) (y + 0) (p - 1) (by rw [CELL_ROWS_eq]; push_cast; omega)
  have e5 := state_at_lit cells (x + 1) (y + 0) (p + 1) (by rw [CELL_ROWS_eq]; push_cast; omega)
  have e6 := state_at_lit cells (x + -1) (y + 1) (p + 119) (by rw [CELL_ROWS_eq]; push_cast; omega)
  have e7 := state_at_lit cells (x + 0) (y + 1) (p + 120) (by rw [CELL_ROWS_eq]; push_cast; omega)
  have e8 := state_at_lit cells (x + 1) (y + 1) (p + 121) (by rw [CELL_ROWS_eq]; push_cast; omega)
  simp only [alive_count, alive_around, moore_offsets, List.countP_cons, List.countP_nil, e1, e2, e3, e4, e5,
    e6, e7, e8, decide_eq_true_eq]
  omega


theorem simulate_idx (cells : List cell_t) (hlen : cells.length = CELL_COUNT) :
    ∃ cells', simulate_cells cells = some cells' ∧ cells'.length = CELL_COUNT ∧
      (∀ p, 121 ≤ p → p < 9721 →
        cells'[p]? = (cells[p]?).map (fun c =>
          { c with state := next_state c.state (alive_around cells p) })) ∧
      (∀ p, ¬ (121 ≤ p ∧ p < 9721) → cells'[p]? = cells[p]?) := by
  obtain ⟨cells', h1, h2, h3⟩ := simulate_cells_eq cells hlen
  refine ⟨cells', h1, h2, ?_, ?_⟩
  · intro p hp1 hp2
    rw [h3 p, if_pos ⟨hp1, hp2⟩]
    have e : alive_count cells (col_of p) (row_of p) = alive_around cells p :=
      alive_count_idx cells (col_of p) (row_of p) p (by simp only [col_of]; omega)
        (by simp only [row_of]; omega) (by simp only [col_of, row_of]; omega)
    have ef : next_cell cells p = fun c =>
        { c with state := next_state c.state (alive_around cells p) } := by
      funext c
      rw [next_cell, e]
    rw [ef]
  · intro p hp
    rw [h3 p, if_neg hp]

theorem simulate_state_idx (cells cells' : List cell_t) (p : Nat) (st : cell_state)
    (h : ∀ p, 121 ≤ p → p < 9721 →
        cells'[p]? = (cells[p]?).map (fun c =>
          { c with state := next_state c.state (alive_around cells p) }))
    (hp1 : 121 ≤ p) (hp2 : p < 9721) (hst : state_idx cells p = some st) :
    state_idx cells' p = some (next_state st (alive_around cells p)) := by
  unfold state_idx at hst ⊢
  rw [h p hp1 hp2]
  cases hc : cells[p]? with
  | none => rw [hc] at hst; cases hst
  | some c =>
    rw [hc] at hst
    have e : c.state = st := Option.some.inj hst
    show some (next_state c.state (alive_around cells p)) = _
    rw [e]

theorem grid_of_length (live : List Nat) : (grid_of live).length = CELL_COUNT := by
  rw [grid_of, List.length_map, List.length_range]

theorem state_idx_grid_of (live : List Nat) (p : Nat) (hp : p < CELL_COUNT) :
    state_idx (grid_of live) p = some (if p ∈ live then ALIVE else DEAD) := by
  rw [state_idx, grid_of, List.getElem?_map, List.getElem?_range hp]
  show some (if p ∈ live then { zero_cell with state := ALIVE } else zero_cell).state = _
  split <;> rfl

theorem state_idx_none (cells : List cell_t) (p : Nat) (hp : cells.length ≤ p) :
    state_idx cells p = none := by
  rw [state_idx, List.getElem?_eq_none hp]; rfl

theorem next_state_alive (st : cell_state) (n : Nat) :
    next_state st n = ALIVE ↔ (st = ALIVE ∧ 2 ≤ n ∧ n ≤ 3) ∨ (st = DEAD ∧ n = 3) := by
  cases st <;> simp only [next_state] <;> split_ifs <;> simp_all
  all_goals omega

theorem alive_around_add (cells : List cell_t) (r : Nat) :
    alive_around cells (r + 121) =
      (if state_idx cells r = some ALIVE then 1 else 0) +
      (if state_idx cells (r + 1) = some ALIVE then 1 else 0) +
      (if state_idx cells (r + 2) = some ALIVE then 1 else 0) +
      (if state_idx cells (r + 120) = some ALIVE then 1 else 0) +
      (if state_idx cells (r + 122) = some ALIVE then 1 else 0) +
      (if state_idx cells (r + 240) = some ALIVE then 1 else 0) +
      (if state_idx cells (r + 241) = some ALIVE then 1 else 0) +
      (if state_idx cells (r + 242) = some ALIVE then 1 else 0) := by
  have e1 : r + 121 - 121 = r := by omega
  have e2 : r + 121 - 120 = r + 1 := by omega
  have e3 : r + 121 - 119 = r + 2 := by omega
  have e4 : r + 121 - 1 = r + 120 := by omega
  rw [alive_around, e1, e2, e3, e4]

/-- The position of an index `r` relative to `mid`, split at the offsets that
matter for the neighbourhoods of a three-cell line through `mid`. -/
theorem offset_cases (r mid : Nat) :
      r + 243 < mid ∨
      r + 243 = mid ∨
      r + 242 = mid ∨
      r + 241 = mid ∨
      r + 240 = mid ∨
      r + 239 = mid ∨
      (r + 123 < mid ∧ mid < r + 239) ∨
      r + 123 = mid ∨
      r + 122 = mid ∨
      r + 121 = mid ∨
      r + 120 = mid ∨
      r + 119 = mid ∨
      (mid < r + 119 ∧ r + 3 < mid) ∨
      r + 3 = mid ∨
      r + 2 = mid ∨
      r + 1 = mid ∨
      r = mid ∨
      r = mid + 1 ∨
      mid + 1 < r := by
  by_cases c : r + 243 < mid
  · exact Or.inl c
  have k : mid ≤ r + 243 := by omega
  clear c
  have l := k
  clear k
  refine Or.inr ?_
  by_cases c : r + 243 = mid
  · exact Or.inl c
  have k : mid ≤ r + 242 := by omega
  clear c l
  have l := k
  clear k
  refine Or.inr ?_
  by_cases c : r + 242 = mid
  · exact Or.inl c
  have k : mid ≤ r + 241 := by omega
  clear c l
  have l := k
  clear k
  refine Or.inr ?_
  by_cases c : r + 241 = mid
  · exact Or.inl c
  have k : mid ≤ r + 240 := by omega
  clear c l
  have l := k
  clear k
  refine Or.inr ?_
  by_cases c : r + 240 = mid
  · exact Or.inl c
  have k : mid ≤ r + 239 := by omega
  clear c l
  have l := k
  clear k
  refine Or.inr ?_
  by_cases c : r + 239 = mid
  · exact Or.inl c
  have k : mid < r + 239 := by omega
  clear c l
  have l := k
  clear k
  refine Or.inr ?_
  by_cases c : r + 123 < mid ∧ mid < r + 239
  · exact Or.inl c
  have k : mid ≤ r + 123 := by omega
  clear c l
  have l := k
  clear k
  refine Or.inr ?_
  by_cases c : r + 123 = mid
  · exact Or.inl c
  have k : mid ≤ r + 122 := by omega
  clear c l
  have l := k
  clear k
  refine Or.inr ?_
  by_cases c : r + 122 = mid
  · exact Or.inl c
  have k : mid ≤ r + 121 := by omega
  clear c l
  have l := k
  clear k
  refine Or.inr ?_
  by_cases c : r + 121 = mid
  · exact Or.inl c
  have k : mid ≤ r + 120 := by omega
  clear c l
  have l := k
  clear k
  refine Or.inr ?_
  by_cases c : r + 120 = mid
  · exact Or.inl c
  have k : mid ≤ r + 119 := by omega
  clear c l
  have l := k
  clear k
  refine Or.inr ?_
  by_cases c : r + 119 = mid
  · exact Or.inl c
  have k : mid < r + 119 := by omega
  clear c l
  have l := k
  clear k
  refine Or.inr ?_
  by_cases c : mid < r + 119 ∧ r + 3 < mid
  · exact Or.inl c
  have k : mid ≤ r + 3 := by omega
  clear c l
  have l := k
  clear k
  refine Or.inr ?_
  by_cases c : r + 3 = mid
  · exact Or.inl c
  have k : mid ≤ r + 2 := by omega
  clear c l
  have l := k
  clear k
  refine Or.inr ?_
  by_cases c : r + 2 = mid
  · exact Or.inl c
  have k : mid ≤ r + 1 := by omega
  clear c l
  have l := k
  clear k
  refine Or.inr ?_
  by_cases c : r + 1 = mid
  · exact Or.inl c
  have k : mid ≤ r := by omega
  clear c l
  have l := k
  clear k
  refine Or.inr ?_
  by_cases c : r = mid
  · exact Or.inl c
  have k : mid < r := by omega
  clear c l
  have l := k
  clear k
  refine Or.inr ?_
  by_cases c : r = mid + 1
  · exact Or.inl c
  have k : mid + 1 < r := by omega
  clear c l
  have l := k
  clear k
  refine Or.inr ?_
  exact l

/-- The position of an index `r` relative to `mid`, split at the offsets that
matter for the neighbourhoods of a vertical three-cell line through `mid`. -/
theorem offset_cases_vertical (r mid : Nat) :
      r + 362 < mid ∨
      r + 362 = mid ∨
      r + 361 = mid ∨
      r + 360 = mid ∨
      (r + 242 < mid ∧ mid < r + 360) ∨
      r + 242 = mid ∨
      r + 241 = mid ∨
      r + 240 = mid ∨
      (r + 122 < mid ∧ mid < r + 240) ∨
      r + 122 = mid ∨
      r + 121 = mid ∨
      r + 120 = mid ∨
      (r + 2 < mid ∧ mid < r + 120) ∨
      r + 2 = mid ∨
      r + 1 = mid ∨
      r = mid ∨
      (mid < r ∧ r < mid + 118) ∨
      r = mid + 118 ∨
      r = mid + 119 ∨
      r = mid + 120 ∨
      mid + 120 < r := by
  by_cases c : r + 362 < mid
  · exact Or.inl c
  have k : mid ≤ r + 362 := by omega
  clear c
  have l := k
  clear k
  refine Or.inr ?_
  by_cases c : r + 362 = mid
  · exact Or.inl c
  have k : mid ≤ r + 361 := by omega
  clear c l
  have l := k
  clear k
  refine Or.inr ?_
  by_cases c : r + 361 = mid
  · exact Or.inl c
  have k : mid ≤ r + 360 := by omega
  clear c l
  have l := k
  clear k
  refine Or.inr ?_
  by_cases c : r + 360 = mid
  · exact Or.inl c
  have k : mid < r + 360 := by omega
  clear c l
  have l := k
  clear k
  refine Or.inr ?_
  by_cases c : r + 242 < mid ∧ mid < r + 360
  · exact Or.inl c
  have k : mid ≤ r + 242 := by omega
  clear c l
  have l := k
  clear k
  refine Or.inr ?_
  by_cases c : r + 242 = mid
  · exact Or.inl c
  have k : mid ≤ r + 241 := by omega
  clear c l
  have l := k
  clear k
  refine Or.inr ?_
  by_cases c : r + 241 = mid
  · exact Or.inl c
  have k : mid ≤ r + 240 := by omega
  clear c l
  have l := k
  clear k
  refine Or.inr ?_
  by_cases c : r + 240 = mid
  · exact Or.inl c
  have k : mid < r + 240 := by omega
  clear c l
  have l := k
  clear k
  refine Or.inr ?_
  by_cases c : r + 122 < mid ∧ mid < r + 240
  · exact Or.inl c
  have k : mid ≤ r + 122 := by omega
  clear c l
  have l := k
  clear k
  refine Or.inr ?_
  by_cases c : r + 122 = mid
  · exact Or.inl c
  have k : mid ≤ r + 121 := by omega
  clear c l
  have l := k
  clear k
  refine Or.inr ?_
  by_cases c : r + 121 = mid
  · exact Or.inl c
  have k : mid ≤ r + 120 := by omega
  clear c l
  have l := k
  clear k
  refine Or.inr ?_
  by_cases c : r + 120 = mid
  · exact Or.inl c
  have k : mid < r + 120 := by omega
  clear c l
  have l := k
  clear k
  refine Or.inr ?_
  by_cases c : r + 2 < mid ∧ mid < r + 120
  · exact Or.inl c
  have k : mid ≤ r + 2 := by omega
  clear c l
  have l := k
  clear k
  refine Or.inr ?_
  by_cases c : r + 2 = mid
  · exact Or.inl c
  have k : mid ≤ r + 1 := by omega
  clear c l
  have l := k
  clear k
  refine Or.inr ?_
  by_cases c : r + 1 = mid
  · exact Or.inl c
  have k : mid ≤ r := by omega
  clear c l
  have l := k
  clear k
  refine Or.inr ?_
  by_cases c : r = mid
  · exact Or.inl c
  have k : mid < r := by omega
  clear c l
  have l := k
  clear k
  refine Or.inr ?_
  by_cases c : mid < r ∧ r < mid + 118
  · exact Or.inl c
  have k : mid + 118 ≤ r := by omega
  clear c l
  have l := k
  clear k
  refine Or.inr ?_
  by_cases c : r = mid + 118
  · exact Or.inl c
  have k : mid + 119 ≤ r := by omega
  clear c l
  have l := k
  clear k
  refine Or.inr ?_
  by_cases c : r = mid + 119
  · exact Or.inl c
  have k : mid + 120 ≤ r := by omega
  clear c l
  have l := k
  clear k
  refine Or.inr ?_
  by_cases c : r = mid + 120
  · exact Or.inl c
  have k : mid + 120 < r := by omega
  clear c l
  have l := k
  clear k
  refine Or.inr ?_
  exact l

set_option maxHeartbeats 4000000 in
/-- The rule at the slot `r + 121` when the `ALIVE` slots are the horizontal line
`lo, mid, hi`: it is `ALIVE` afterwards exactly on the vertical line `lo', mid, hi'`. -/
theorem line_core_horizontal (r lo mid hi lo' hi' : Nat)
    (h1 : lo + 1 = mid) (h2 : hi = mid + 1) (h3 : lo' + 120 = mid) (h4 : hi' = mid + 120) :
    ((r + 121 = lo ∨ r + 121 = mid ∨ r + 121 = hi) ∧
      2 ≤ (if r = lo ∨ r = mid ∨ r = hi then 1 else 0) +
          (if r + 1 = lo ∨ r + 1 = mid ∨ r + 1 = hi then 1 else 0) +
          (if r + 2 = lo ∨ r + 2 = mid ∨ r + 2 = hi then 1 else 0) +
          (if r + 120 = lo ∨ r + 120 = mid ∨ r + 120 = hi then 1 else 0) +
          (if r + 122 = lo ∨ r + 122 = mid ∨ r + 122 = hi then 1 else 0) +
          (if r + 240 = lo ∨ r + 240 = mid ∨ r + 240 = hi then 1 else 0) +
          (if r + 241 = lo ∨ r + 241 = mid ∨ r + 241 = hi then 1 else 0) +
          (if r + 242 = lo ∨ r + 242 = mid ∨ r + 242 = hi then 1 else 0) ∧
      (if r = lo ∨ r = mid ∨ r = hi then 1 else 0) +
        (if r + 1 = lo ∨ r + 1 = mid ∨ r + 1 = hi then 1 else 0) +
        (if r + 2 = lo ∨ r + 2 = mid ∨ r + 2 = hi then 1 else 0) +
        (if r + 120 = lo ∨ r + 120 = mid ∨ r + 120 = hi then 1 else 0) +
        (if r + 122 = lo ∨ r + 122 = mid ∨ r + 122 = hi then 1 else 0) +
        (if r + 240 = lo ∨ r + 240 = mid ∨ r + 240 = hi then 1 else 0) +
        (if r + 241 = lo ∨ r + 241 = mid ∨ r + 241 = hi then 1 else 0) +
        (if r + 242 = lo ∨ r + 242 = mid ∨ r + 242 = hi then 1 else 0) ≤ 3 ∨
    ¬ (r + 121 = lo ∨ r + 121 = mid ∨ r + 121 = hi) ∧
      (if r = lo ∨ r = mid ∨ r = hi then 1 else 0) +
        (if r + 1 = lo ∨ r + 1 = mid ∨ r + 1 = hi then 1 else 0) +
        (if r + 2 = lo ∨ r + 2 = mid ∨ r + 2 = hi then 1 else 0) +
        (if r + 120 = lo ∨ r + 120 = mid ∨ r + 120 = hi then 1 else 0) +
        (if r + 122 = lo ∨ r + 122 = mid ∨ r + 122 = hi then 1 else 0) +
        (if r + 240 = lo ∨ r + 240 = mid ∨ r + 240 = hi then 1 else 0) +
        (if r + 241 = lo ∨ r + 241 = mid ∨ r + 241 = hi then 1 else 0) +
        (if r + 242 = lo ∨ r + 242 = mid ∨ r + 242 = hi then 1 else 0) = 3) ↔
    (r + 121 = lo' ∨ r + 121 = mid ∨ r + 121 = hi') := by
  rcases offset_cases r mid with c | c | c | c | c | c | c | c | c | c | c | c | c | c | c | c | c | c | c
  all_goals
    first
      | rw [if_neg (show ¬ (r = lo ∨ r = mid ∨ r = hi) by omega)]
      | rw [if_pos (show r = lo ∨ r = mid ∨ r = hi by omega)]
    first
      | rw [if_neg (show ¬ (r + 1 = lo ∨ r + 1 = mid ∨ r + 1 = hi) by omega)]
      | rw [if_pos (show r + 1 = lo ∨ r + 1 = mid ∨ r + 1 = hi by omega)]
    first
      | rw [if_neg (show ¬ (r + 2 = lo ∨ r + 2 = mid ∨ r + 2 = hi) by omega)]
      | rw [if_pos (show r + 2 = lo ∨ r + 2 = mid ∨ r + 2 = hi by omega)]
    first
      | rw [if_neg (show ¬ (r + 120 = lo ∨ r + 120 = mid ∨ r + 120 = hi) by omega)]
      | rw [if_pos (show r + 120 = lo ∨ r + 120 = mid ∨ r + 120 = hi by omega)]
    first
      | rw [if_neg (show ¬ (r + 122 = lo ∨ r + 122 = mid ∨ r + 122 = hi) by omega)]
      | rw [if_pos (show r + 122 = lo ∨ r + 122 = mid ∨ r + 122 = hi by omega)]
    first
      | rw [if_neg (show ¬ (r + 240 = lo ∨ r + 240 = mid ∨ r + 240 = hi) by omega)]
      | rw [if_pos (show r + 240 = lo ∨ r + 240 = mid ∨ r + 240 = hi by omega)]
    first
      | rw [if_neg (show ¬ (r + 241 = lo ∨ r + 241 = mid ∨ r + 241 = hi) by omega)]
      | rw [if_pos (show r + 241 = lo ∨ r + 241 = mid ∨ r + 241 = hi by omega)]
    first
      | rw [if_neg (show ¬ (r + 242 = lo ∨ r + 242 = mid ∨ r + 242 = hi) by omega)]
      | rw [if_pos (show r + 242 = lo ∨ r + 242 = mid ∨ r + 242 = hi by omega)]
    omega

set_option maxHeartbeats 4000000 in
/-- The rule at the slot `r + 121` when the `ALIVE` slots are the vertical line
`lo, mid, hi`: it is `ALIVE` afterwards exactly on the horizontal line `lo', mid, hi'`. -/
theorem line_core_vertical (r lo mid hi lo' hi' : Nat)
    (h1 : lo + 120 = mid) (h2 : hi = mid + 120) (h3 : lo' + 1 = mid) (h4 : hi' = mid + 1) :
    ((r + 121 = lo ∨ r + 121 = mid ∨ r + 121 = hi) ∧
      2 ≤ (if r = lo ∨ r = mid ∨ r = hi then 1 else 0) +
          (if r + 1 = lo ∨ r + 1 = mid ∨ r + 1 = hi then 1 else 0) +
          (if r + 2 = lo ∨ r + 2 = mid ∨ r + 2 = hi then 1 else 0) +
          (if r + 120 = lo ∨ r + 120 = mid ∨ r + 120 = hi then 1 else 0) +
          (if r + 122 = lo ∨ r + 122 = mid ∨ r + 122 = hi then 1 else 0) +
          (if r + 240 = lo ∨ r + 240 = mid ∨ r + 240 = hi then 1 else 0) +
          (if r + 241 = lo ∨ r + 241 = mid ∨ r + 241 = hi then 1 else 0) +
          (if r + 242 = lo ∨ r + 242 = mid ∨ r + 242 = hi then 1 else 0) ∧
      (if r = lo ∨ r = mid ∨ r = hi then 1 else 0) +
        (if r + 1 = lo ∨ r + 1 = mid ∨ r + 1 = hi then 1 else 0) +
        (if r + 2 = lo ∨ r + 2 = mid ∨ r + 2 = hi then 1 else 0) +
        (if r + 120 = lo ∨ r + 120 = mid ∨ r + 120 = hi then 1 else 0) +
        (if r + 122 = lo ∨ r + 122 = mid ∨ r + 122 = hi then 1 else 0) +
        (if r + 240 = lo ∨ r + 240 = mid ∨ r + 240 = hi then 1 else 0) +
        (if r + 241 = lo ∨ r + 241 = mid ∨ r + 241 = hi then 1 else 0) +
        (if r + 242 = lo ∨ r + 242 = mid ∨ r + 242 = hi then 1 else 0) ≤ 3 ∨
    ¬ (r + 121 = lo ∨ r + 121 = mid ∨ r + 121 = hi) ∧
      (if r = lo ∨ r = mid ∨ r = hi then 1 else 0) +
        (if r + 1 = lo ∨ r + 1 = mid ∨ r + 1 = hi then 1 else 0) +
        (if r + 2 = lo ∨ r + 2 = mid ∨ r + 2 = hi then 1 else 0) +
        (if r + 120 = lo ∨ r + 120 = mid ∨ r + 120 = hi then 1 else 0) +
        (if r + 122 = lo ∨ r + 122 = mid ∨ r + 122 = hi then 1 else 0) +
        (if r + 240 = lo ∨ r + 240 = mid ∨ r + 240 = hi then 1 else 0) +
        (if r + 241 = lo ∨ r + 241 = mid ∨ r + 241 = hi then 1 else 0) +
        (if r + 242 = lo ∨ r + 242 = mid ∨ r + 242 = hi then 1 else 0) = 3) ↔
    (r + 121 = lo' ∨ r + 121 = mid ∨ r + 121 = hi') := by
  rcases offset_cases_vertical r mid with c | c | c | c | c | c | c | c | c | c | c | c | c | c | c | c | c | c | c | c | c
  all_goals
    first
      | rw [if_neg (show ¬ (r = lo ∨ r = mid ∨ r = hi) by omega)]
      | rw [if_pos (show r = lo ∨ r = mid ∨ r = hi by omega)]
    first
      | rw [if_neg (show ¬ (r + 1 = lo ∨ r + 1 = mid ∨ r + 1 = hi) by omega)]
      | rw [if_pos (show r + 1 = lo ∨ r + 1 = mid ∨ r + 1 = hi by omega)]
    first
      | rw [if_neg (show ¬ (r + 2 = lo ∨ r + 2 = mid ∨ r + 2 = hi) by omega)]
      | rw [if_pos (show r + 2 = lo ∨ r + 2 = mid ∨ r + 2 = hi by omega)]
    first
      | rw [if_neg (show ¬ (r + 120 = lo ∨ r + 120 = mid ∨ r + 120 = hi) by omega)]
      | rw [if_pos (show r + 120 = lo ∨ r + 120 = mid ∨ r + 120 = hi by omega)]
    first
      | rw [if_neg (show ¬ (r + 122 = lo ∨ r + 122 = mid ∨ r + 122 = hi) by omega)]
      | rw [if_pos (show r + 122 = lo ∨ r + 122 = mid ∨ r + 122 = hi by omega)]
    first
      | rw [if_neg (show ¬ (r + 240 = lo ∨ r + 240 = mid ∨ r + 240 = hi) by omega)]
      | rw [if_pos (show r + 240 = lo ∨ r + 240 = mid ∨ r + 240 = hi by omega)]
    first
      | rw [if_neg (show ¬ (r + 241 = lo ∨ r + 241 = mid ∨ r + 241 = hi) by omega)]
      | rw [if_pos (show r + 241 = lo ∨ r + 241 = mid ∨ r + 241 = hi by omega)]
    first
      | rw [if_neg (show ¬ (r + 242 = lo ∨ r + 242 = mid ∨ r + 242 = hi) by omega)]
      | rw [if_pos (show r + 242 = lo ∨ r + 242 = mid ∨ r + 242 = hi by omega)]
    omega

/-- One generation on a grid whose `ALIVE` slots are the line `lo, mid, hi`
(horizontal: step 1, vertical: step 120): the `ALIVE` slots afterwards are the
perpendicular line `lo', mid, hi'` through `mid`. -/
theorem line_step (cells cells' : List cell_t) (lo mid hi lo' hi' : Nat)
    (he : (lo + 1 = mid ∧ hi = mid + 1 ∧ lo' + 120 = mid ∧ hi' = mid + 120) ∨
      (lo + 120 = mid ∧ hi = mid + 120 ∧ lo' + 1 = mid ∧ hi' = mid + 1))
    (ha1 : 242 ≤ mid) (ha2 : mid ≤ 9599)
    (hlen : cells.length = CELL_COUNT)
    (hlive : ∀ p, state_idx cells p = some ALIVE ↔ (p = lo ∨ p = mid ∨ p = hi))
    (hstep : ∀ p, 121 ≤ p → p < 9721 →
        cells'[p]? = (cells[p]?).map (fun c =>
          { c with state := next_state c.state (alive_around cells p) }))
    (hrest : ∀ p, ¬ (121 ≤ p ∧ p < 9721) → cells'[p]? = cells[p]?) :
    ∀ p, state_idx cells' p = some ALIVE ↔ (p = lo' ∨ p = mid ∨ p = hi') := by
  intro p
  by_cases hp : 121 ≤ p ∧ p < 9721
  · have hb : p < cells.length := by rw [hlen, CELL_COUNT_eq]; omega
    obtain ⟨st, hst⟩ : ∃ st, state_idx cells p = some st :=
      ⟨_, by rw [state_idx, List.getElem?_eq_getElem hb]; rfl⟩
    rw [simulate_state_idx cells cells' p st hstep hp.1 hp.2 hst]
    have hst' : st = ALIVE ↔ (p = lo ∨ p = mid ∨ p = hi) := by
      rw [← hlive p, hst]
      exact ⟨fun h => by rw [h], fun h => Option.some.inj h⟩
    have hdead : st = DEAD ↔ ¬ (p = lo ∨ p = mid ∨ p = hi) := by
      rw [← hst']
      cases st <;> simp
    obtain ⟨r, rfl⟩ : ∃ r, p = r + 121 := ⟨p - 121, by omega⟩
    simp only [Option.some.injEq, next_state_alive, hst', hdead, alive_around_add, hlive]
    rcases he with ⟨h1, h2, h3, h4⟩ | ⟨h1, h2, h3, h4⟩
    · exact line_core_horizontal r lo mid hi lo' hi' h1 h2 h3 h4
    · exact line_core_vertical r lo mid hi lo' hi' h1 h2 h3 h4
  · have hs : state_idx cells' p = state_idx cells p := by
      rw [state_idx, state_idx, hrest p hp]
    rw [hs, hlive p]
    rcases he with ⟨h1, h2, h3, h4⟩ | ⟨h1, h2, h3, h4⟩ <;> omega

/-- The array after two generations is the array before them when the states
agree: positions and hover flags are carried along unchanged. -/
theorem step_back_eq (cells c1 c2 : List cell_t) (hlen : cells.length = CELL_COUNT)
    (h1 : ∀ p, 121 ≤ p → p < 9721 →
        c1[p]? = (cells[p]?).map (fun c =>
          { c with state := next_state c.state (alive_around cells p) }))
    (r1 : ∀ p, ¬ (121 ≤ p ∧ p < 9721) → c1[p]? = cells[p]?)
    (h2 : ∀ p, 121 ≤ p → p < 9721 →
        c2[p]? = (c1[p]?).map (fun c =>
          { c with state := next_state c.state (alive_around c1 p) }))
    (r2 : ∀ p, ¬ (121 ≤ p ∧ p < 9721) → c2[p]? = c1[p]?)
    (hst : ∀ p, state_idx c2 p = some ALIVE ↔ state_idx cells p = some ALIVE) :
    c2 = cells := by
  apply List.ext_getElem?
  intro p
  by_cases hp : 121 ≤ p ∧ p < 9721
  · have hb : p < cells.length := by rw [hlen, CELL_COUNT_eq]; omega
    obtain ⟨c, hc⟩ : ∃ c, cells[p]? = some c := ⟨_, List.getElem?_eq_getElem hb⟩
    have e1 := h1 p hp.1 hp.2
    rw [hc, Option.map_some'] at e1
    have e2 := h2 p hp.1 hp.2
    rw [e1, Option.map_some'] at e2
    have hs := hst p
    rw [state_idx, state_idx, e2, hc, Option.map_some', Option.map_some'] at hs
    rw [e2, hc]
    obtain ⟨ps, st, hv⟩ := c
    generalize alive_around c1 p = n2 at hs ⊢
    generalize alive_around cells p = n1 at hs ⊢
    have key : next_state (next_state st n1) n2 = st := by
      have hs' : next_state (next_state st n1) n2 = ALIVE ↔ st = ALIVE :=
        ⟨fun h => Option.some.inj (hs.1 (congrArg some h)),
         fun h => Option.some.inj (hs.2 (congrArg some h))⟩
      cases hx : next_state (next_state st n1) n2 with
      | ALIVE => exact (hs'.1 hx).symm
      | DEAD =>
        cases st with
        | DEAD => rfl
        | ALIVE => rw [hs'.2 rfl] at hx; cases hx
    show some (cell_t.mk ps (next_state (next_state st n1) n2) hv) = _
    rw [key]
  · rw [r2 p hp, r1 p hp]

theorem mouse_motion_total (s : State) (x y : Int) (hwf : well_formed s) :
    ∃ s' b, mouse_motion s x y = some (s', b) ∧ well_formed s' := by
  by_cases h : to_size_t (Int.tdiv (wrap_int (x + 10)) 10) ≤ 121 ∧
      to_size_t (Int.tdiv (wrap_int (y + 10)) 10) ≤ 81
  · obtain ⟨cells', hm, hl, _⟩ := mouse_motion_accept s x y _ _ rfl rfl h.1 h.2 hwf.1 hwf.2.1
    exact ⟨_, _, hm, moved_wf s cells' _ _ hl h.1 h.2⟩
  · exact ⟨s, true, mouse_motion_reject s x y _ _ rfl rfl (by omega), hwf⟩

theorem handle_event_total (s : State) (e : Event) (hwf : well_formed s) :
    ∃ s' b, handle_event s e = some (s', b) ∧ well_formed s' := by
  cases e with
  | QUIT => exact ⟨{ s with running := 0 }, true, rfl, hwf⟩
  | MOUSEMOTION x y => exact mouse_motion_total s x y hwf
  | MOUSEBUTTONDOWN button =>
    by_cases hb : button = SDL_BUTTON_LEFT
    · exact ⟨pressed s, false, by rw [handle_event, if_pos hb]; rfl, hwf⟩
    · exact ⟨s, false, by rw [handle_event, if_neg hb], hwf⟩
  | MOUSEBUTTONUP button =>
    by_cases hb : button = SDL_BUTTON_LEFT
    · exact ⟨released s, false, by rw [handle_event, if_pos hb]; rfl, hwf⟩
    · exact ⟨s, false, by rw [handle_event, if_neg hb], hwf⟩
  | KEYDOWN sym =>
    by_cases ha : sym = SDLK_a
    · exact ⟨{ s with active_state := active_fn.simulate }, false,
        by rw [handle_event, if_pos ha], hwf⟩
    · by_cases he : sym = SDLK_ESCAPE
      · exact ⟨{ s with running := 0 }, false, by rw [handle_event, if_neg ha, if_pos he], hwf⟩
      · exact ⟨s, false, by rw [handle_event, if_neg ha, if_neg he], hwf⟩
  | OTHER => exact ⟨s, false, rfl, hwf⟩

theorem poll_events_total (q : List Event) :
    ∀ s : State, well_formed s → ∃ s' q', poll_events s q = some (s', q') ∧ well_formed s' := by
  induction q with
  | nil => intro s hwf; exact ⟨s, [], rfl, hwf⟩
  | cons e q ih =>
    intro s hwf
    obtain ⟨s1, b, h1, hwf1⟩ := handle_event_total s e hwf
    cases b with
    | true => exact ⟨s1, q, poll_cons_break s s1 e q h1, hwf1⟩
    | false =>
      obtain ⟨s2, q2, h2, hwf2⟩ := ih s1 hwf1
      exact ⟨s2, q2, (poll_cons_continue s s1 e q h1).trans h2, hwf2⟩

theorem simulate_total (s : State) (hwf : well_formed s) :
    ∃ s', simulate s = some s' ∧ well_formed s' := by
  obtain ⟨cells', h1, h2, _⟩ := simulate_cells_eq s.cells hwf.1
  exact ⟨{ s with cells := cells' }, by rw [simulate, h1, Option.some_bind],
    h2, hwf.2.1, hwf.2.2⟩

theorem call_active_state_total (s : State) (hwf : well_formed s) :
    ∃ s', call_active_state s = some s' ∧ well_formed s' := by
  unfold call_active_state
  split
  · exact ⟨edit_result s, edit_eq s hwf.1 hwf.2.2, edit_result_wf s hwf⟩
  · exact simulate_total s hwf

theorem frame_total (s : State) (q : List Event) (hwf : well_formed s) :
    ∃ s' q', frame s q = some (s', q') ∧ well_formed s' := by
  obtain ⟨s1, q1, h1, hwf1⟩ := poll_events_total q s hwf
  obtain ⟨s2, h2, hwf2⟩ := call_active_state_total s1 hwf1
  exact ⟨s2, q1, by rw [frame, h1, Option.some_bind, h2, Option.some_bind], hwf2⟩

theorem reachable_wf (s : State) (h : Reachable s) : well_formed s := by
  induction h with
  | start s hs =>
    obtain ⟨cells, hinit, hlen, _⟩ := init_eq
    rw [hinit] at hs
    rw [← Option.some.inj hs]
    exact start_state_wf cells hlen
  | step s s' q q' _ _ hf ih =>
    obtain ⟨s2, q2, h2, hwf2⟩ := frame_total s q ih
    rw [hf] at h2
    have e : s' = s2 := congrArg Prod.fst (Option.some.inj h2)
    rw [e]; exact hwf2

theorem pointer_in_cell_x (m : Int × Int) (x y : Nat) (hx : 1 ≤ x ∧ x ≤ 120)
    (h : pointer_in_cell m x y) :
    to_size_t (Int.tdiv (wrap_int (m.1 + 10)) 10) = x := by
  obtain ⟨h1, h2, _, _⟩ := h
  rw [CELL_W_eq] at h1 h2
  push_cast at h1 h2
  have ht : Int.tdiv (m.1 + 10) 10 = x := by
    rw [tdiv_ten, if_pos (by omega)]; omega
  have := pixel_accept m.1 121 (le_refl _) (by omega) (by omega) (by omega) (by omega)
  omega

theorem pointer_in_cell_y (m : Int × Int) (x y : Nat) (hy : 1 ≤ y ∧ y ≤ 80)
    (h : pointer_in_cell m x y) :
    to_size_t (Int.tdiv (wrap_int (m.2 + 10)) 10) = y := by
  obtain ⟨_, _, h1, h2⟩ := h
  rw [CELL_H_eq] at h1 h2
  push_cast at h1 h2
  have ht : Int.tdiv (m.2 + 10) 10 = y := by
    rw [tdiv_ten, if_pos (by omega)]; omega
  have := pixel_accept m.2 81 (by omega) (by omega) (by omega) (by omega) (by omega)
  omega

theorem edit_result_running (s : State) : (edit_result s).running = s.running := by
  unfold edit_result
  split <;> rfl

theorem edit_result_changed_same (s : State) (h : s.current_cell = s.changed_cell) :
    (edit_result s).changed_cell = s.changed_cell := by
  unfold edit_result
  split
  · exact h
  · rfl

theorem main_loop_cons (s s' : State) (a : List Event) (rest : List (List Event))
    (h1 : s.running ≠ 0) (h2 : frame s a = some (s', [])) :
    main_loop s [] (a :: rest) = main_loop s' [] rest := by
  rw [main_loop, if_pos h1, List.nil_append, h2, Option.some_bind]

theorem main_loop_take_inv (I : State → Prop) (hrun : ∀ s, I s → s.running ≠ 0)
    (l : List (List Event)) :
    (∀ s a, a ∈ l → I s → ∃ s', frame s a = some (s', []) ∧ I s') →
    ∀ s, I s → ∀ k, ∃ sk, main_loop s [] (l.take k) = some (sk, []) ∧ I sk := by
  induction l with
  | nil =>
    intro _ s hs k
    exact ⟨s, by rw [List.take_nil]; rfl, hs⟩
  | cons a l ih =>
    intro hstep s hs k
    cases k with
    | zero => exact ⟨s, rfl, hs⟩
    | succ k =>
      obtain ⟨s1, h1, hs1⟩ := hstep s a (List.mem_cons_self a l) hs
      obtain ⟨sk, h2, hsk⟩ := ih (fun t b hb ht => hstep t b (List.mem_cons_of_mem a hb) ht)
        s1 hs1 k
      exact ⟨sk, by rw [List.take_succ_cons, main_loop_cons s s1 a _ (hrun s hs) h1]; exact h2,
        hsk⟩

/-- The edit step when the current cell is the last toggled cell: nothing but
`changed_cell` can be written, and it keeps its value. -/
theorem edit_result_rest (s : State) (h : s.current_cell = s.changed_cell) :
    (edit_result s).cells = s.cells ∧ (edit_result s).current_cell = s.current_cell ∧
    (edit_result s).changed_cell = s.changed_cell ∧ (edit_result s).running = s.running ∧
    (edit_result s).active_state = s.active_state :=
  ⟨edit_result_cells_same s h, edit_result_current s, edit_result_changed_same s h,
    edit_result_running s, edit_result_active s⟩

theorem idle_down (s : State) (h : idle_state s) :
    ∃ s', frame s [Event.MOUSEBUTTONDOWN SDL_BUTTON_LEFT] = some (s', []) ∧
      idle_state s' ∧ s'.left_btn ≠ 0 := by
  obtain ⟨hwf, he, hr, hc, hg, hd⟩ := h
  have hsame : (pressed s).current_cell = (pressed s).changed_cell := hc.trans hg.symm
  obtain ⟨e1, e2, e3, e4, e5⟩ := edit_result_rest (pressed s) hsame
  refine ⟨edit_result (pressed s), frame_down s hwf he,
    ⟨edit_result_wf _ hwf, e5.trans he, by rw [e4]; exact hr, e2.trans hc, e3.trans hg,
      by rw [e1]; exact hd⟩, ?_⟩
  have hp : (pressed s).left_btn ≠ 0 := Nat.succ_ne_zero 0
  rw [edit_result, if_pos hp]
  exact hp

theorem toggled_of_moved (s : State) (cells' : List cell_t) (x y : Nat)
    (hx : 1 ≤ x ∧ x ≤ 120) (hy : 1 ≤ y ∧ y ≤ 80)
    (_hwf : well_formed s) (he : s.active_state = active_fn.edit) (hr : s.running ≠ 0)
    (hl : cells'.length = CELL_COUNT)
    (hfirst : (s.left_btn ≠ 0 ∧ s.changed_cell = 0 ∧
        ∀ p, p < CELL_COUNT → state_idx cells' p = some DEAD) ∨
      (s.changed_cell = x + y * 120 ∧
        ∀ p, p < CELL_COUNT → state_idx cells' p = some (if p = x + y * 120 then ALIVE else DEAD))) :
    toggled_state (x + y * 120) (edit_result (moved s cells' x y)) := by
  have hwf1 : well_formed (moved s cells' x y) := moved_wf s cells' x y hl (by omega) (by omega)
  have hcur : (moved s cells' x y).current_cell = x + y * 120 := by
    show y * CELL_ROWS + x = x + y * 120
    rw [CELL_ROWS_eq]; omega
  have hb : x + y * 120 < cells'.length := by rw [hl, CELL_COUNT_eq]; omega
  refine ⟨edit_result_wf _ hwf1, (edit_result_active _).trans he,
    by rw [edit_result_running]; exact hr, (edit_result_current _).trans hcur, ?_, ?_⟩
  · rcases hfirst with ⟨hbtn, _, _⟩ | ⟨hchg, _⟩
    · rw [edit_result_changed (moved s cells' x y) hbtn]; exact hcur
    · rw [edit_result_changed_same _ (hcur.trans hchg.symm)]; exact hchg
  · intro p hp
    rcases hfirst with ⟨hbtn, hchg, hdead⟩ | ⟨hchg, hst⟩
    · have hne : (moved s cells' x y).current_cell ≠ (moved s cells' x y).changed_cell := by
        rw [hcur]
        show x + y * 120 ≠ s.changed_cell
        rw [hchg]; omega
      rw [edit_result_cells_held (moved s cells' x y) hbtn, if_pos hne, hcur]
      show state_idx (flip_idx cells' (x + y * 120)) p = _
      rw [state_idx_flip _ _ _ hb]
      by_cases h : p = x + y * 120
      · rw [if_pos h, if_pos h, hdead _ (by rw [CELL_COUNT_eq]; omega)]; rfl
      · rw [if_neg h, if_neg h, hdead p hp]
    · rw [edit_result_cells_same _ (hcur.trans hchg.symm)]
      exact hst p hp

theorem toggled_motion (s : State) (m : Int × Int) (x y : Nat)
    (hx : 1 ≤ x ∧ x ≤ 120) (hy : 1 ≤ y ∧ y ≤ 80) (hm : pointer_in_cell m x y)
    (h : toggled_state (x + y * 120) s) :
    ∃ s', frame s [Event.MOUSEMOTION m.1 m.2] = some (s', []) ∧
      toggled_state (x + y * 120) s' := by
  obtain ⟨hwf, he, hr, _, hg, hd⟩ := h
  obtain ⟨cells', hf, hl, hs⟩ := frame_motion s m.1 m.2 x y (pointer_in_cell_x m x y hx hm)
    (pointer_in_cell_y m x y hy hm) (by omega) (by omega) hwf he
  exact ⟨_, hf, toggled_of_moved s cells' x y hx hy hwf he hr hl
    (Or.inr ⟨hg, fun p hp => by rw [hs p]; exact hd p hp⟩)⟩

theorem toggled_up (c : Nat) (s : State) (h : toggled_state c s) :
    ∃ s', frame s [Event.MOUSEBUTTONUP SDL_BUTTON_LEFT] = some (s', []) ∧ toggled_state c s' := by
  obtain ⟨hwf, he, hr, hc, hg, hd⟩ := h
  exact ⟨released s, frame_up s hwf he, hwf, he, hr, hc, hg, hd⟩

theorem idle_motion (s : State) (m : Int × Int) (x y : Nat)
    (hx : 1 ≤ x ∧ x ≤ 120) (hy : 1 ≤ y ∧ y ≤ 80) (hm : pointer_in_cell m x y)
    (h : idle_state s) (hbtn : s.left_btn ≠ 0) :
    ∃ s', frame s [Event.MOUSEMOTION m.1 m.2] = some (s', []) ∧
      toggled_state (x + y * 120) s' := by
  obtain ⟨hwf, he, hr, _, hg, hd⟩ := h
  obtain ⟨cells', hf, hl, hs⟩ := frame_motion s m.1 m.2 x y (pointer_in_cell_x m x y hx hm)
    (pointer_in_cell_y m x y hy hm) (by omega) (by omega) hwf he
  exact ⟨_, hf, toggled_of_moved s cells' x y hx hy hwf he hr hl
    (Or.inl ⟨hbtn, hg, fun p hp => by rw [hs p]; exact hd p hp⟩)⟩

theorem idle_down_motion (s : State) (m : Int × Int) (x y : Nat)
    (hx : 1 ≤ x ∧ x ≤ 120) (hy : 1 ≤ y ∧ y ≤ 80) (hm : pointer_in_cell m x y)
    (h : idle_state s) :
    ∃ s', frame s [Event.MOUSEBUTTONDOWN SDL_BUTTON_LEFT, Event.MOUSEMOTION m.1 m.2]
        = some (s', []) ∧
      toggled_state (x + y * 120) s' := by
  obtain ⟨hwf, he, hr, _, hg, hd⟩ := h
  obtain ⟨cells', hp, hl, hs⟩ := poll_motion (pressed s) m.1 m.2 x y []
    (pointer_in_cell_x m x y hx hm) (pointer_in_cell_y m x y hy hm) (by omega) (by omega) hwf
  have hpoll : poll_events s [Event.MOUSEBUTTONDOWN SDL_BUTTON_LEFT, Event.MOUSEMOTION m.1 m.2]
      = some (moved (pressed s) cells' x y, []) :=
    (poll_cons_continue _ _ _ _ (handle_down s)).trans (hp.trans (poll_nil _))
  exact ⟨_, frame_edit s _ _ _ hpoll (moved_wf (pressed s) cells' x y hl (by omega) (by omega)) he,
    toggled_of_moved (pressed s) cells' x y hx hy hwf he hr hl
      (Or.inl ⟨Nat.succ_ne_zero 0, hg, fun p hp => by rw [hs p]; exact hd p hp⟩)⟩

/-- After the frame with the first motion, every prefix of the remaining frames
of the drag leaves exactly the slot of `(x, y)` `ALIVE`. -/
theorem drag_tail (s : State) (x y : Nat) (rest : List (Int × Int))
    (hx : 1 ≤ x ∧ x ≤ 120) (hy : 1 ≤ y ∧ y ≤ 80)
    (hm : ∀ m ∈ rest, pointer_in_cell m x y) (h : toggled_state (x + y * 120) s) (k : Nat) :
    ∃ sk, main_loop s []
        ((rest.map (fun m => [Event.MOUSEMOTION m.1 m.2]) ++
          [[Event.MOUSEBUTTONUP SDL_BUTTON_LEFT]]).take k) = some (sk, []) ∧
      toggled_state (x + y * 120) sk := by
  apply main_loop_take_inv (toggled_state (x + y * 120)) (fun t ht => ht.2.2.1) _ _ s h k
  intro t a ha ht
  rcases List.mem_append.1 ha with ha | ha
  · obtain ⟨m, hmem, rfl⟩ := List.mem_map.1 ha
    exact toggled_motion t m x y hx hy (hm m hmem) ht
  · rw [List.mem_singleton] at ha
    rw [ha]
    exact toggled_up _ t ht

theorem start_idle (cells : List cell_t) (hlen : cells.length = CELL_COUNT)
    (hdead : ∀ p, p < CELL_COUNT → state_idx cells p = some DEAD) :
    idle_state (start_state cells) :=
  ⟨start_state_wf cells hlen, rfl, Nat.succ_ne_zero 0, rfl, rfl, hdead⟩

theorem only_alive_grid_of (live : List Nat) (h : ∀ p ∈ live, p < CELL_COUNT) :
    only_alive (grid_of live) live := by
  refine ⟨grid_of_length live, ?_⟩
  intro p
  by_cases hp : p < CELL_COUNT
  · rw [state_idx_grid_of live p hp]
    by_cases hm : p ∈ live
    · rw [if_pos hm]; exact ⟨fun _ => hm, fun _ => rfl⟩
    · rw [if_neg hm]; exact ⟨fun hh => (by cases hh), fun hh => absurd hh hm⟩
  · rw [state_idx_none _ p (by rw [grid_of_length]; omega)]
    exact ⟨fun hh => (by cases hh), fun hh => absurd (h p hh) hp⟩

/-- A three-cell line through `mid` becomes the perpendicular line after one
generation and is back after two. -/
theorem line_round_trip (cells : List cell_t) (lo mid hi lo' hi' : Nat)
    (he : (lo + 1 = mid ∧ hi = mid + 1 ∧ lo' + 120 = mid ∧ hi' = mid + 120) ∨
      (lo + 120 = mid ∧ hi = mid + 120 ∧ lo' + 1 = mid ∧ hi' = mid + 1))
    (ha1 : 242 ≤ mid) (ha2 : mid ≤ 9599)
    (h : only_alive cells [lo, mid, hi]) :
    ∃ c1, simulate_cells cells = some c1 ∧ only_alive c1 [lo', mid, hi'] ∧
      simulate_cells c1 = some cells := by
  obtain ⟨hlen, hlive⟩ := h
  have hlive' : ∀ p, state_idx cells p = some ALIVE ↔ (p = lo ∨ p = mid ∨ p = hi) := by
    intro p
    rw [hlive p]
    simp only [List.mem_cons, List.mem_singleton, List.mem_nil_iff, or_false]
  obtain ⟨c1, e1, l1, k1, r1⟩ := simulate_idx cells hlen
  have hl1 := line_step cells c1 lo mid hi lo' hi' he ha1 ha2 hlen hlive' k1 r1
  obtain ⟨c2, e2, l2, k2, r2⟩ := simulate_idx c1 l1
  have he' : (lo' + 1 = mid ∧ hi' = mid + 1 ∧ lo + 120 = mid ∧ hi = mid + 120) ∨
      (lo' + 120 = mid ∧ hi' = mid + 120 ∧ lo + 1 = mid ∧ hi = mid + 1) := by
    rcases he with ⟨a, b, c, d⟩ | ⟨a, b, c, d⟩
    · exact Or.inr ⟨c, d, a, b⟩
    · exact Or.inl ⟨c, d, a, b⟩
  have hl2 := line_step c1 c2 lo' mid hi' lo hi he' ha1 ha2 l1 hl1 k2 r2
  have hback : c2 = cells :=
    step_back_eq cells c1 c2 hlen k1 r1 k2 r2 (fun p => by rw [hl2 p, hlive' p])
  refine ⟨c1, e1, ⟨l1, ?_⟩, by rw [e2, hback]⟩
  intro p
  rw [hl1 p]
  simp only [List.mem_cons, List.mem_singleton, List.mem_nil_iff, or_false]

theorem grid_state_interior (cells : List cell_t) (x y : Int) (p : Nat)
    (h : 1 ≤ x ∧ x ≤ 120 ∧ 1 ≤ y ∧ y ≤ 80) (hp : (x + y * 120).toNat = p) :
    grid_state cells x y = state_idx cells p := by
  have hc : 1 ≤ x ∧ x ≤ (CELL_ROWS : Nat) ∧ 1 ≤ y ∧ y ≤ (CELL_COLS : Nat) := by
    rw [CELL_ROWS_eq, CELL_COLS_eq]; exact h
  rw [grid_state, if_pos hc]
  exact state_at_lit cells x y p (by rw [CELL_ROWS_eq]; exact hp)

theorem grid_state_border (cells : List cell_t) (x y : Int)
    (h : ¬ (1 ≤ x ∧ x ≤ 120 ∧ 1 ≤ y ∧ y ≤ 80)) :
    grid_state cells x y = some DEAD := by
  have hc : ¬ (1 ≤ x ∧ x ≤ (CELL_ROWS : Nat) ∧ 1 ≤ y ∧ y ≤ (CELL_COLS : Nat)) := by
    rw [CELL_ROWS_eq, CELL_COLS_eq]; exact h
  rw [grid_state, if_neg hc]

theorem simulate_eq (s : State) (cells' : List cell_t)
    (h : simulate_cells s.cells = some cells') :
    simulate s = some { s with cells := cells' } := by
  rw [simulate, h, Option.some_bind]

theorem start_state_cells (cells : List cell_t) : (start_state cells).cells = cells := rfl

/-! ## The claims -/

/-- C1, the code at the failing input: on the grid whose only `ALIVE` cells are
the interior cells `(1, 1)`, `(2, 1)` and `(120, 1)`, the interior cell
`c = (1, 2)` is `DEAD` and 2 of its 8 Moore positions hold an `ALIVE` cell
(`(1, 1)` and `(2, 1)`; the positions `(0, 1)`, `(0, 2)`, `(0, 3)` are border),
so the rule gives `next_state DEAD 2 = DEAD`.  `get_alive_neighbours(1, 2)`
returns 3, because it reads position `(0, 2)` as `cells[0 + 2*CELL_ROWS]`, the
slot of the interior cell `(120, 1)`, and one call of `simulate` leaves `c`
`ALIVE`. -/
theorem simulate_counts_wrapped_neighbour :
    ∃ s', simulate (start_state (grid_of [cell_index 1 1, cell_index 2 1, cell_index 120 1]))
        = some s' ∧
      grid_state (grid_of [cell_index 1 1, cell_index 2 1, cell_index 120 1]) 1 2 = some DEAD ∧
      moore_count (grid_of [cell_index 1 1, cell_index 2 1, cell_index 120 1]) 1 2 = 2 ∧
      next_state DEAD 2 = DEAD ∧
      get_alive_neighbours (grid_of [cell_index 1 1, cell_index 2 1, cell_index 120 1]) 1 2
        = some 3 ∧
      state_at s'.cells 1 2 = some ALIVE := by
  have i1 : cell_index 1 1 = 121 := by decide
  have i2 : cell_index 2 1 = 122 := by decide
  have i3 : cell_index 120 1 = 240 := by decide
  rw [i1, i2, i3]
  have hl := grid_of_length [121, 122, 240]
  obtain ⟨g1, e1, _, k1, _⟩ := simulate_idx _ hl
  have st : ∀ p, p < 10004 → state_idx (grid_of [121, 122, 240]) p =
      some (if p ∈ [121, 122, 240] then ALIVE else DEAD) := fun p hp =>
    state_idx_grid_of _ p (by rw [CELL_COUNT_eq]; exact hp)
  have hc : grid_state (grid_of [121, 122, 240]) 1 2 = some DEAD := by
    rw [grid_state_interior _ 1 2 241 (by decide) (by decide), st 241 (by omega)]
    rfl
  have n1 := grid_state_border (grid_of [121, 122, 240]) (1 + -1) (2 + -1) (by decide)
  have n2 := grid_state_interior (grid_of [121, 122, 240]) (1 + 0) (2 + -1) 121
    (by decide) (by decide)
  have n3 := grid_state_interior (grid_of [121, 122, 240]) (1 + 1) (2 + -1) 122
    (by decide) (by decide)
  have n4 := grid_state_border (grid_of [121, 122, 240]) (1 + -1) (2 + 0) (by decide)
  have n5 := grid_state_interior (grid_of [121, 122, 240]) (1 + 1) (2 + 0) 242
    (by decide) (by decide)
  have n6 := grid_state_border (grid_of [121, 122, 240]) (1 + -1) (2 + 1) (by decide)
  have n7 := grid_state_interior (grid_of [121, 122, 240]) (1 + 0) (2 + 1) 361
    (by decide) (by decide)
  have n8 := grid_state_interior (grid_of [121, 122, 240]) (1 + 1) (2 + 1) 362
    (by decide) (by decide)
  have hn : moore_count (grid_of [121, 122, 240]) 1 2 = 2 := by
    simp only [moore_count, moore_offsets, List.countP_cons, List.countP_nil, n1, n2, n3, n4,
      n5, n6, n7, n8, st, Nat.reduceLT]
    decide
  have ha : alive_around (grid_of [121, 122, 240]) 241 = 3 := by
    simp only [alive_around, st, Nat.reduceSub, Nat.reduceAdd, Nat.reduceLT]
    decide
  have hg : get_alive_neighbours (grid_of [121, 122, 240]) 1 2 = some 3 := by
    have hcnt : alive_count (grid_of [121, 122, 240]) ((1 : Nat) : Int) ((2 : Nat) : Int)
        = alive_around (grid_of [121, 122, 240]) 241 :=
      alive_count_idx (grid_of [121, 122, 240]) 1 2 241 (by omega) (by omega) (by norm_num)
    rw [get_alive_neighbours_eq _ 1 2 hl (by omega) (by omega), hcnt, ha]
  refine ⟨{ start_state (grid_of [121, 122, 240]) with cells := g1 },
    simulate_eq (start_state (grid_of [121, 122, 240])) g1
      ((congrArg simulate_cells (start_state_cells (grid_of [121, 122, 240]))).trans e1),
    hc, hn, rfl, hg, ?_⟩
  show state_at g1 ((1 : Nat) : Int) ((2 : Nat) : Int) = some ALIVE
  rw [state_at_idx g1 1 2 241 (by omega) (by omega) rfl,
    simulate_state_idx _ g1 241 DEAD k1 (by omega) (by omega) (by rw [st 241 (by omega)]; rfl),
    ha]
  rfl

/-- C2, the code at the failing input: from the initial all-`DEAD` grid, one
frame with the pointer moved to pixel `(1195, 5)`, which is the interior cell
`(CELL_ROWS, 1)`, and the left button pressed toggles that interior cell; the
border coordinate `(0, 2)`, read as `cells[0 + 2*CELL_ROWS]`, is the same array
slot and now reads `ALIVE`. -/
theorem border_invariant_fails :
    ∃ s0 s1, init = some s0 ∧
      frame s0 [Event.MOUSEMOTION 1195 5, Event.MOUSEBUTTONDOWN SDL_BUTTON_LEFT] = some (s1, []) ∧
      s1.mouse_x = CELL_ROWS ∧ s1.mouse_y = 1 ∧
      state_at s0.cells (0 : Nat) (2 : Nat) = some DEAD ∧
      state_at s1.cells (0 : Nat) (2 : Nat) = some ALIVE := by
  obtain ⟨cells, hinit, hlen, hdead⟩ := init_eq
  obtain ⟨s1, hf1, _, _, hmx, hmy, _, _, hst⟩ := first_toggle cells 1195 5 120 1
    (by decide) (by decide) (by omega) (by omega) (by omega) hlen hdead
  have h240 : (240 : Nat) < CELL_COUNT := by rw [CELL_COUNT_eq]; omega
  refine ⟨start_state cells, s1, hinit, hf1, hmx, hmy, ?_, ?_⟩
  · rw [state_at_idx _ 0 2 240 (by omega) (by omega) rfl]
    exact hdead 240 h240
  · rw [state_at_idx _ 0 2 240 (by omega) (by omega) rfl, hst 240 h240, if_pos rfl]

/-- C3, the code at the failing input: on the grid whose only `ALIVE` cells are
the interior cells `(1, 1)` and `(2, 1)`, the interior cell `c = (1, 2)` is
`DEAD` after one generation; with the state of the interior cell `d = (120, 1)`
flipped first (`|120 - 1| > 1`, so `d` is neither `c` nor a Moore neighbour of
`c`), `c` is `ALIVE` after one generation. -/
theorem locality_fails :
    ∃ g1 g2,
      simulate_cells (grid_of [cell_index 1 1, cell_index 2 1]) = some g1 ∧
      simulate_cells (flip_idx (grid_of [cell_index 1 1, cell_index 2 1]) (cell_index 120 1))
        = some g2 ∧
      state_at g1 (1 : Nat) (2 : Nat) = some DEAD ∧
      state_at g2 (1 : Nat) (2 : Nat) = some ALIVE := by
  have i1 : cell_index 1 1 = 121 := by decide
  have i2 : cell_index 2 1 = 122 := by decide
  have i3 : cell_index 120 1 = 240 := by decide
  rw [i1, i2, i3]
  have hl := grid_of_length [121, 122]
  have hl2 : (flip_idx (grid_of [121, 122]) 240).length = CELL_COUNT := by
    rw [flip_idx_length]; exact hl
  obtain ⟨g1, h1, _, k1, _⟩ := simulate_idx _ hl
  obtain ⟨g2, h2, _, k2, _⟩ := simulate_idx _ hl2
  have hb : 240 < (grid_of [121, 122]).length := by
    rw [grid_of_length, CELL_COUNT_eq]; omega
  have s1 : ∀ p, p < 10004 → state_idx (grid_of [121, 122]) p =
      some (if p ∈ [121, 122] then ALIVE else DEAD) := fun p hp =>
    state_idx_grid_of _ p (by rw [CELL_COUNT_eq]; exact hp)
  have s2 : ∀ p, p < 10004 → state_idx (flip_idx (grid_of [121, 122]) 240) p =
      if p = 240 then some ALIVE else some (if p ∈ [121, 122] then ALIVE else DEAD) := by
    intro p hp
    rw [state_idx_flip _ _ _ hb, s1 p hp, s1 240 (by omega)]
    rfl
  refine ⟨g1, g2, h1, h2, ?_, ?_⟩
  · rw [state_at_idx g1 1 2 241 (by omega) (by omega) rfl,
      simulate_state_idx _ g1 241 DEAD k1 (by omega) (by omega)
        (by rw [s1 241 (by omega)]; rfl)]
    have : alive_around (grid_of [121, 122]) 241 = 2 := by
      simp only [alive_around, s1, Nat.reduceSub, Nat.reduceAdd, Nat.reduceLT]
      decide
    rw [this]; rfl
  · rw [state_at_idx g2 1 2 241 (by omega) (by omega) rfl,
      simulate_state_idx _ g2 241 DEAD k2 (by omega) (by omega)
        (by rw [s2 241 (by omega)]; rfl)]
    have : alive_around (flip_idx (grid_of [121, 122]) 240) 241 = 3 := by
      simp only [alive_around, s2, Nat.reduceSub, Nat.reduceAdd, Nat.reduceLT]
      decide
    rw [this]; rfl

/-- C4 (amended): for every pointer-motion event with `Sint32` pixel coordinates
`(px, py)`, let `cx = (px + CELL_W) / CELL_W` and `cy = (py + CELL_H) / CELL_H`
with the division of C, which truncates toward zero.  If `cx ∈ [0, CELL_ROWS+1]`
and `cy ∈ [0, CELL_COLS+1]` the event is accepted, `mouse_x = cx`,
`mouse_y = cy` and the current cell becomes `cells[cx + cy*CELL_ROWS]`;
otherwise the branch breaks out of the polling loop with the program state
unchanged.  The truncated quotient is the floor whenever `px ≥ -CELL_W`
(`py ≥ -CELL_H`). -/
theorem motion_translation (s : State) (px py : Int) (hwf : well_formed s)
    (hpx : -(2 ^ 31) ≤ px ∧ px < 2 ^ 31) (hpy : -(2 ^ 31) ≤ py ∧ py < 2 ^ 31) :
    ((0 ≤ Int.tdiv (px + CELL_W) CELL_W ∧ Int.tdiv (px + CELL_W) CELL_W ≤ CELL_ROWS + 1 ∧
      0 ≤ Int.tdiv (py + CELL_H) CELL_H ∧ Int.tdiv (py + CELL_H) CELL_H ≤ CELL_COLS + 1) →
      ∃ s', mouse_motion s px py = some (s', false) ∧
        (s'.mouse_x : Int) = Int.tdiv (px + CELL_W) CELL_W ∧
        (s'.mouse_y : Int) = Int.tdiv (py + CELL_H) CELL_H ∧
        s'.current_cell = s'.mouse_x + s'.mouse_y * CELL_ROWS) ∧
    (¬ (0 ≤ Int.tdiv (px + CELL_W) CELL_W ∧ Int.tdiv (px + CELL_W) CELL_W ≤ CELL_ROWS + 1 ∧
      0 ≤ Int.tdiv (py + CELL_H) CELL_H ∧ Int.tdiv (py + CELL_H) CELL_H ≤ CELL_COLS + 1) →
      mouse_motion s px py = some (s, true)) ∧
    (-(CELL_W : Int) ≤ px → Int.tdiv (px + CELL_W) CELL_W = Int.fdiv (px + CELL_W) CELL_W) ∧
    (-(CELL_H : Int) ≤ py → Int.tdiv (py + CELL_H) CELL_H = Int.fdiv (py + CELL_H) CELL_H) := by
  obtain ⟨hlen, hprev, _⟩ := hwf
  simp only [CELL_W_eq, CELL_H_eq, CELL_ROWS_eq, CELL_COLS_eq, Nat.cast_ofNat]
  refine ⟨?_, ?_, ?_, ?_⟩
  · rintro ⟨h1, h2, h3, h4⟩
    have ex := pixel_accept px 121 (le_refl _) hpx.1 hpx.2 h1 (by omega)
    have ey := pixel_accept py 81 (by omega) hpy.1 hpy.2 h3 (by omega)
    obtain ⟨cells', hm, _, _⟩ :=
      mouse_motion_accept s px py _ _ rfl rfl (by omega) (by omega) hlen hprev
    exact ⟨_, hm, ex, ey, Nat.add_comm _ _⟩
  · intro h
    apply mouse_motion_reject s px py _ _ rfl rfl
    by_cases hx : Int.tdiv (px + 10) 10 < 0 ∨ ((121 : Nat) : Int) < Int.tdiv (px + 10) 10
    · left
      exact pixel_reject px 121 (le_refl _) hpx.1 hpx.2 hx
    · right
      exact pixel_reject py 81 (by omega) hpy.1 hpy.2 (by
        by_contra hy
        exact h ⟨by omega, by omega, by omega, by omega⟩)
  · intro h
    rw [Int.tdiv_eq_ediv (by omega) (by decide), Int.fdiv_eq_ediv _ (by decide)]
  · intro h
    rw [Int.tdiv_eq_ediv (by omega) (by decide), Int.fdiv_eq_ediv _ (by decide)]

/-- C4, witness: the theorem at the start state and the pixel `(1195, 5)`, which
is accepted as cell `(120, 1)`. -/
theorem motion_translation_witness :
    well_formed zero_state ∧
    ∃ s', mouse_motion zero_state 1195 5 = some (s', false) ∧
      (s'.mouse_x : Int) = 120 ∧ (s'.mouse_y : Int) = 1 ∧
      s'.current_cell = s'.mouse_x + s'.mouse_y * CELL_ROWS :=
  ⟨zero_state_wf,
    (motion_translation zero_state 1195 5 zero_state_wf (by decide) (by decide)).1 (by decide)⟩

/-- C4, counterexample: at the pixel `(-15, 5)` the floor of
`(px + CELL_W) / CELL_W` is `-1`, outside `[0, CELL_ROWS+1]`, so the claim has
the event discarded; the code accepts it and the current cell changes from
index `0` to index `120`. -/
theorem motion_floor_counterexample :
    Int.fdiv (-15 + (CELL_W : Int)) CELL_W = -1 ∧
    ∃ s', mouse_motion zero_state (-15) 5 = some (s', false) ∧
      zero_state.current_cell = 0 ∧ s'.current_cell = 120 := by
  refine ⟨by decide, ?_⟩
  obtain ⟨cells', hm, _, _⟩ := mouse_motion_accept zero_state (-15) 5 0 1 (by decide) (by decide)
    (by omega) (by omega) zero_state_length zero_state_wf.2.1
  exact ⟨_, hm, rfl, rfl⟩

/-- C5 (amended): in Edit mode, for every interior cell `c = (x, y)` under the
pointer, if the button is pressed (the edit step toggling `c`, since `c` is not
the last toggled cell), then released, then pressed again with no pointer
motion in between, the edit step after the second press does not toggle `c`
again: `c` keeps the state the first press gave it and the whole grid is the
one left by the first press. -/
theorem repress_does_not_retoggle (s : State) (x y : Nat) (hwf : well_formed s)
    (he : s.active_state = active_fn.edit)
    (hx : 1 ≤ x ∧ x ≤ CELL_ROWS) (hy : 1 ≤ y ∧ y ≤ CELL_COLS)
    (hcur : s.current_cell = x + y * CELL_ROWS) (hfirst : s.current_cell ≠ s.changed_cell) :
    ∃ s1 s2 s3 st,
      frame s [Event.MOUSEBUTTONDOWN SDL_BUTTON_LEFT] = some (s1, []) ∧
      frame s1 [Event.MOUSEBUTTONUP SDL_BUTTON_LEFT] = some (s2, []) ∧
      frame s2 [Event.MOUSEBUTTONDOWN SDL_BUTTON_LEFT] = some (s3, []) ∧
      state_at s.cells x y = some st ∧
      state_at s1.cells x y = some (alive_minus st) ∧
      state_at s2.cells x y = some (alive_minus st) ∧
      state_at s3.cells x y = some (alive_minus st) ∧
      s3.cells = s1.cells := by
  obtain ⟨f1, f2, f3, c3, c2, c1⟩ := press_release_press s hwf he
  rw [CELL_ROWS_eq] at hx hcur
  rw [CELL_COLS_eq] at hy
  have hb : x + y * 120 < s.cells.length := by rw [hwf.1, CELL_COUNT_eq]; omega
  rw [if_pos hfirst, hcur] at c1
  have h0 : state_at s.cells x y = some (s.cells[x + y * 120]).state := by
    rw [state_at_interior _ x y (by omega) (by omega), state_idx, List.getElem?_eq_getElem hb]
    rfl
  have h1 : state_at (edit_result (pressed s)).cells x y
      = some (alive_minus (s.cells[x + y * 120]).state) := by
    rw [state_at_interior _ x y (by omega) (by omega), c1, state_idx_flip _ _ _ hb, if_pos rfl,
      state_idx, List.getElem?_eq_getElem hb]
    rfl
  refine ⟨_, _, _, _, f1, f2, f3, h0, h1, ?_, ?_, c3⟩
  · rw [c2]; exact h1
  · rw [c3]; exact h1

/-- C5, witness: the theorem at the start state with the pointer moved onto the
interior cell `(1, 1)`. -/
theorem repress_does_not_retoggle_witness :
    ∃ s1 s2 s3 st,
      frame (moved zero_state zero_state.cells 1 1) [Event.MOUSEBUTTONDOWN SDL_BUTTON_LEFT]
        = some (s1, []) ∧
      frame s1 [Event.MOUSEBUTTONUP SDL_BUTTON_LEFT] = some (s2, []) ∧
      frame s2 [Event.MOUSEBUTTONDOWN SDL_BUTTON_LEFT] = some (s3, []) ∧
      state_at (moved zero_state zero_state.cells 1 1).cells (1 : Nat) (1 : Nat) = some st ∧
      state_at s1.cells (1 : Nat) (1 : Nat) = some (alive_minus st) ∧
      state_at s2.cells (1 : Nat) (1 : Nat) = some (alive_minus st) ∧
      state_at s3.cells (1 : Nat) (1 : Nat) = some (alive_minus st) ∧
      s3.cells = s1.cells :=
  repress_does_not_retoggle (moved zero_state zero_state.cells 1 1) 1 1
    (moved_wf zero_state zero_state.cells 1 1 zero_state_length (by decide) (by decide))
    rfl (by decide) (by decide) (by decide) (by decide)

/-- C5, counterexample: from the initial state, the pointer is moved onto the
interior cell `(1, 1)` and the button pressed (the cell becomes `ALIVE`), the
button is released, and pressed again without any motion: after the edit step
of the second press the cell is still `ALIVE`, not toggled again. -/
theorem repress_counterexample :
    ∃ s0 s1 s2 s3, init = some s0 ∧
      frame s0 [Event.MOUSEMOTION 5 5, Event.MOUSEBUTTONDOWN SDL_BUTTON_LEFT] = some (s1, []) ∧
      frame s1 [Event.MOUSEBUTTONUP SDL_BUTTON_LEFT] = some (s2, []) ∧
      frame s2 [Event.MOUSEBUTTONDOWN SDL_BUTTON_LEFT] = some (s3, []) ∧
      state_at s0.cells (1 : Nat) (1 : Nat) = some DEAD ∧
      state_at s1.cells (1 : Nat) (1 : Nat) = some ALIVE ∧
      state_at s2.cells (1 : Nat) (1 : Nat) = some ALIVE ∧
      state_at s3.cells (1 : Nat) (1 : Nat) = some ALIVE := by
  obtain ⟨cells, hinit, hlen, hdead⟩ := init_eq
  obtain ⟨s1, hf1, hwf1, he1, _, _, hcur, hchg, hst⟩ := first_toggle cells 5 5 1 1
    (by decide) (by decide) (by omega) (by omega) (by omega) hlen hdead
  have h121 : (121 : Nat) < CELL_COUNT := by rw [CELL_COUNT_eq]; omega
  have hs1 : state_at s1.cells (1 : Nat) (1 : Nat) = some ALIVE := by
    rw [state_at_idx _ 1 1 121 (by omega) (by omega) rfl, hst 121 h121, if_pos rfl]
  have hwf2 : well_formed (released s1) := hwf1
  have c3 : (edit_result (pressed (released s1))).cells = s1.cells := by
    rw [edit_result_cells_same]
    · rfl
    · show s1.current_cell = s1.changed_cell
      rw [hcur, hchg]
  refine ⟨start_state cells, s1, released s1, edit_result (pressed (released s1)), hinit, hf1,
    frame_up s1 hwf1 he1, frame_down (released s1) hwf2 he1, ?_, hs1, hs1, ?_⟩
  · rw [state_at_idx _ 1 1 121 (by omega) (by omega) rfl]
    exact hdead 121 h121
  · rw [c3]; exact hs1

/-- C6: starting from the initial state (Edit mode, all cells `DEAD`, button
up), for every interior cell `c = (x, y)` and every `n ≥ 1` pointer motions
`m0 :: rest` that all lie in the square of `c`, a button press (in a frame of
its own or at the head of the first motion frame), one frame per motion and a
frame with the release run without a failed access, and after the first `k`
frames, for every `k`, the grid has `c` `ALIVE` and every other cell `DEAD` if
the frame with the first motion is among them, and every cell `DEAD` if it is
not: the state of `c` changes in exactly one frame, so `c` is toggled exactly
once, it ends `ALIVE`, and no other cell changes. -/
theorem drag_toggles_once (x y : Nat) (hx : 1 ≤ x ∧ x ≤ CELL_ROWS) (hy : 1 ≤ y ∧ y ≤ CELL_COLS)
    (own_frame : Bool) (m0 : Int × Int) (rest : List (Int × Int))
    (hm : ∀ m ∈ m0 :: rest, pointer_in_cell m x y) :
    ∃ s0, init = some s0 ∧
      ∀ k, ∃ sk, main_loop s0 [] ((drag_frames own_frame m0 rest).take k) = some (sk, []) ∧
        ∀ p, p < CELL_COUNT →
          state_idx sk.cells p =
            some (if p = cell_index x y ∧ (if own_frame = true then 2 else 1) ≤ k
                  then ALIVE else DEAD) := by
  rw [CELL_ROWS_eq] at hx
  rw [CELL_COLS_eq] at hy
  rw [cell_index_eq x y (by omega) (by omega)]
  obtain ⟨cells, hinit, hlen, hdead⟩ := init_eq
  have hidle := start_idle cells hlen hdead
  have hm0 := hm m0 (List.mem_cons_self m0 rest)
  have hrest : ∀ m ∈ rest, pointer_in_cell m x y := fun m h => hm m (List.mem_cons_of_mem m0 h)
  refine ⟨start_state cells, hinit, ?_⟩
  intro k
  cases own_frame with
  | false =>
    cases k with
    | zero =>
      refine ⟨start_state cells, rfl, ?_⟩
      intro p hp
      rw [hidle.2.2.2.2.2 p hp, if_neg (by simp)]
    | succ k =>
      obtain ⟨s1, hf1, ht1⟩ := idle_down_motion (start_state cells) m0 x y hx hy hm0 hidle
      obtain ⟨sk, hk, htk⟩ := drag_tail s1 x y rest hx hy hrest ht1 k
      refine ⟨sk, ?_, ?_⟩
      · rw [drag_frames, List.take_succ_cons, main_loop_cons _ s1 _ _ hidle.2.2.1 hf1]
        exact hk
      · intro p hp
        rw [htk.2.2.2.2.2 p hp]
        by_cases h : p = x + y * 120
        · rw [if_pos h, if_pos ⟨h, by simp⟩]
        · rw [if_neg h, if_neg (fun hh => h hh.1)]
  | true =>
    cases k with
    | zero =>
      refine ⟨start_state cells, rfl, ?_⟩
      intro p hp
      rw [hidle.2.2.2.2.2 p hp, if_neg (by simp)]
    | succ k =>
      obtain ⟨s1, hf1, hi1, hb1⟩ := idle_down (start_state cells) hidle
      cases k with
      | zero =>
        refine ⟨s1, ?_, ?_⟩
        · rw [drag_frames, List.take_succ_cons, main_loop_cons _ s1 _ _ hidle.2.2.1 hf1]
          rfl
        · intro p hp
          rw [hi1.2.2.2.2.2 p hp, if_neg (by simp)]
      | succ k =>
        obtain ⟨s2, hf2, ht2⟩ := idle_motion s1 m0 x y hx hy hm0 hi1 hb1
        obtain ⟨sk, hk, htk⟩ := drag_tail s2 x y rest hx hy hrest ht2 k
        refine ⟨sk, ?_, ?_⟩
        · rw [drag_frames, List.take_succ_cons, main_loop_cons _ s1 _ _ hidle.2.2.1 hf1,
            List.take_succ_cons, main_loop_cons _ s2 _ _ hi1.2.2.1 hf2]
          exact hk
        · intro p hp
          rw [htk.2.2.2.2.2 p hp]
          by_cases h : p = x + y * 120
          · rw [if_pos h, if_pos ⟨h, by simp⟩]
          · rw [if_neg h, if_neg (fun hh => h hh.1)]

/-- C6, witness: the theorem for the interior cell `(1, 1)`, the press in a frame
of its own and the two motions `(5, 5)`, `(6, 6)`. -/
theorem drag_toggles_once_witness :
    ∃ s0, init = some s0 ∧
      ∀ k, ∃ sk, main_loop s0 [] ((drag_frames true (5, 5) [(6, 6)]).take k) = some (sk, []) ∧
        ∀ p, p < CELL_COUNT →
          state_idx sk.cells p =
            some (if p = cell_index 1 1 ∧ (if true = true then 2 else 1) ≤ k
                  then ALIVE else DEAD) :=
  drag_toggles_once 1 1 (by decide) (by decide) true (5, 5) [(6, 6)] (by
    intro m hm
    simp only [List.mem_cons, List.mem_singleton, List.mem_nil_iff, or_false] at hm
    rcases hm with rfl | rfl <;> (unfold pointer_in_cell; decide))

/-- C7 (amended): in Edit mode, for every state in which the accepted pointer
position is a border coordinate (`mouse_x ∈ {0, CELL_ROWS+1}` or
`mouse_y ∈ {0, CELL_COLS+1}`) and the button is held, the edit step changes the
state of no cell other than the current cell `cells[mouse_y*CELL_ROWS + mouse_x]`;
that cell is flipped when it is not the last toggled cell, as for any other
position, and the grid is unchanged when it is. -/
theorem edit_toggles_border_cell (s : State) (hwf : well_formed s) (hbtn : s.left_btn ≠ 0)
    (_hx : s.mouse_x ≤ CELL_ROWS + 1) (_hy : s.mouse_y ≤ CELL_COLS + 1)
    (_hborder : s.mouse_x = 0 ∨ s.mouse_x = CELL_ROWS + 1 ∨ s.mouse_y = 0 ∨
      s.mouse_y = CELL_COLS + 1)
    (_hcur : s.current_cell = s.mouse_y * CELL_ROWS + s.mouse_x) :
    ∃ s', edit s = some s' ∧
      (∀ p, p ≠ s.current_cell → state_idx s'.cells p = state_idx s.cells p) ∧
      (s.current_cell ≠ s.changed_cell →
        state_idx s'.cells s.current_cell
          = (state_idx s.cells s.current_cell).map alive_minus) ∧
      (s.current_cell = s.changed_cell → s'.cells = s.cells) := by
  have hb : s.current_cell < s.cells.length := by rw [hwf.1]; exact hwf.2.2
  refine ⟨edit_result s, edit_eq s hwf.1 hwf.2.2, ?_, ?_, ?_⟩
  · intro p hp
    rw [edit_result_cells_held s hbtn]
    split
    · rw [state_idx_flip _ _ _ hb, if_neg hp]
    · rfl
  · intro hne
    rw [edit_result_cells_held s hbtn, if_pos hne, state_idx_flip _ _ _ hb, if_pos rfl]
  · intro heq
    exact edit_result_cells_same s heq

/-- C7, witness: the theorem at the start state with the pointer on the border
coordinate `(0, 1)` and the button held. -/
theorem edit_toggles_border_cell_witness :
    ∃ s', edit (pressed (moved zero_state zero_state.cells 0 1)) = some s' ∧
      (∀ p, p ≠ (pressed (moved zero_state zero_state.cells 0 1)).current_cell →
        state_idx s'.cells p
          = state_idx (pressed (moved zero_state zero_state.cells 0 1)).cells p) ∧
      ((pressed (moved zero_state zero_state.cells 0 1)).current_cell
          ≠ (pressed (moved zero_state zero_state.cells 0 1)).changed_cell →
        state_idx s'.cells (pressed (moved zero_state zero_state.cells 0 1)).current_cell
          = (state_idx (pressed (moved zero_state zero_state.cells 0 1)).cells
              (pressed (moved zero_state zero_state.cells 0 1)).current_cell).map alive_minus) ∧
      ((pressed (moved zero_state zero_state.cells 0 1)).current_cell
          = (pressed (moved zero_state zero_state.cells 0 1)).changed_cell →
        s'.cells = (pressed (moved zero_state zero_state.cells 0 1)).cells) :=
  edit_toggles_border_cell (pressed (moved zero_state zero_state.cells 0 1))
    (moved_wf zero_state zero_state.cells 0 1 zero_state_length (by decide) (by decide))
    (Nat.succ_ne_zero 0) (by decide) (by decide) (Or.inl rfl) rfl

/-- C7, counterexample: from the initial state, the pointer is moved to pixel
`(-5, 5)`, accepted as the border coordinate `(0, 1)`, and the button pressed;
the edit step turns the border cell `(0, 1)` from `DEAD` to `ALIVE`. -/
theorem border_toggle_counterexample :
    ∃ s0 s1 s2, init = some s0 ∧
      poll_events s0 [Event.MOUSEMOTION (-5) 5, Event.MOUSEBUTTONDOWN SDL_BUTTON_LEFT]
        = some (s1, []) ∧
      s1.mouse_x = 0 ∧ s1.mouse_y = 1 ∧ s1.left_btn = 1 ∧ s1.active_state = active_fn.edit ∧
      edit s1 = some s2 ∧
      state_at s1.cells (0 : Nat) (1 : Nat) = some DEAD ∧
      state_at s2.cells (0 : Nat) (1 : Nat) = some ALIVE := by
  obtain ⟨cells, hinit, hlen, hdead⟩ := init_eq
  obtain ⟨cells', hm, hlen', hst⟩ := mouse_motion_accept (start_state cells) (-5) 5 0 1
    (by decide) (by decide) (by omega) (by omega) hlen (start_state_wf cells hlen).2.1
  have h120 : state_idx cells' 120 = some DEAD := by
    rw [hst 120]; exact hdead 120 (by rw [CELL_COUNT_eq]; omega)
  have hb : 120 < cells'.length := by rw [hlen', CELL_COUNT_eq]; omega
  refine ⟨start_state cells, pressed (moved (start_state cells) cells' 0 1),
    edit_result (pressed (moved (start_state cells) cells' 0 1)),
    hinit, ?_, rfl, rfl, rfl, rfl, ?_, ?_, ?_⟩
  · rw [poll_cons_continue _ _ _ _ ((handle_motion _ _ _).trans hm),
      poll_cons_continue _ _ _ _ (handle_down _), poll_nil]
  · exact edit_eq _ hlen' (by rw [CELL_COUNT_eq]; show 1 * 120 + 0 < 10004; omega)
  · rw [state_at_idx _ 0 1 120 (by omega) (by omega) rfl]
    exact h120
  · rw [state_at_idx _ 0 1 120 (by omega) (by omega) rfl]
    show state_idx (flip_idx cells' 120) 120 = some ALIVE
    rw [state_idx_flip _ _ _ hb, if_pos rfl, h120]
    rfl

/-- C8, the code at the failing inputs: whenever the frame took less than the
budget of `1/60` s, `simulate` does not call `SDL_Delay` at all (in particular
for the readings `0, 0` and `0, 10`), and for the readings `0, 100`, a frame of
`0.1` s that exceeds the budget, it calls `SDL_Delay(83)`. -/
theorem pacer_sleeps_only_when_late :
    (∀ start_time end_time : Nat, start_time ≤ end_time → end_time < 2 ^ 32 →
      (((end_time - start_time : Nat) : ℚ) / 1000 < 1 / 60) →
      simulate_delay start_time end_time = none) ∧
    simulate_delay 0 0 = none ∧ simulate_delay 0 10 = none ∧
    simulate_delay 0 100 = some 83 := by
  refine ⟨?_, ?_, ?_, ?_⟩
  · intro start_time end_time h1 h2 h3
    rw [simulate_delay_eq start_time end_time h1 h2, if_neg]
    intro h18
    have h4 : ((18 : Nat) : ℚ) ≤ ((end_time - start_time : Nat) : ℚ) := by exact_mod_cast h18
    have h5 : ((18 : Nat) : ℚ) = 18 := by norm_num
    rw [h5] at h4
    linarith
  · rw [simulate_delay_eq 0 0 (by omega) (by norm_num), if_neg (by omega)]
  · rw [simulate_delay_eq 0 10 (by omega) (by norm_num), if_neg (by omega)]
  · rw [simulate_delay_eq 0 100 (by omega) (by norm_num), if_pos (by omega)]
    congr 1
    have : ((((100 - 0 : Nat) : ℚ) / 1000 - 1 / 60) * 1000) = 250 / 3 := by norm_num
    rw [this]
    have : ⌊(250 / 3 : ℚ)⌋ = 83 := by
      rw [Int.floor_eq_iff]; constructor <;> norm_num
    rw [this]; rfl

/-- C8, witness: the general part at the readings `5, 12`, a frame of 7 ms. -/
theorem pacer_sleeps_only_when_late_witness : simulate_delay 5 12 = none :=
  pacer_sleeps_only_when_late.1 5 12 (by decide) (by norm_num) (by norm_num)

/-- C9: for every interior centre `(x, y)` with `2 ≤ x ≤ CELL_ROWS - 1` and
`2 ≤ y ≤ CELL_COLS - 1`, on a grid whose only `ALIVE` cells are the horizontal
line `(x-1, y), (x, y), (x+1, y)`, one generation yields a grid whose only
`ALIVE` cells are the vertical line `(x, y-1), (x, y), (x, y+1)`, and a second
generation yields the original grid again; and the same starting from the
vertical line. -/
theorem blinker_oscillates (cells : List cell_t) (x y : Nat)
    (hx : 2 ≤ x ∧ x ≤ CELL_ROWS - 1) (hy : 2 ≤ y ∧ y ≤ CELL_COLS - 1) :
    (only_alive cells [cell_index (x - 1) y, cell_index x y, cell_index (x + 1) y] →
      ∃ c1, simulate_cells cells = some c1 ∧
        only_alive c1 [cell_index x (y - 1), cell_index x y, cell_index x (y + 1)] ∧
        simulate_cells c1 = some cells) ∧
    (only_alive cells [cell_index x (y - 1), cell_index x y, cell_index x (y + 1)] →
      ∃ c1, simulate_cells cells = some c1 ∧
        only_alive c1 [cell_index (x - 1) y, cell_index x y, cell_index (x + 1) y] ∧
        simulate_cells c1 = some cells) := by
  rw [CELL_ROWS_eq] at hx
  rw [CELL_COLS_eq] at hy
  rw [cell_index_eq (x - 1) y (by omega) (by omega), cell_index_eq x y (by omega) (by omega),
    cell_index_eq (x + 1) y (by omega) (by omega), cell_index_eq x (y - 1) (by omega) (by omega),
    cell_index_eq x (y + 1) (by omega) (by omega)]
  constructor
  · exact line_round_trip cells _ _ _ _ _ (Or.inl ⟨by omega, by omega, by omega, by omega⟩)
      (by omega) (by omega)
  · exact line_round_trip cells _ _ _ _ _ (Or.inr ⟨by omega, by omega, by omega, by omega⟩)
      (by omega) (by omega)

/-- C9, witness: the horizontal blinker centred at `(2, 2)`. -/
theorem blinker_oscillates_witness :
    ∃ c1, simulate_cells (grid_of [cell_index (2 - 1) 2, cell_index 2 2, cell_index (2 + 1) 2])
        = some c1 ∧
      only_alive c1 [cell_index 2 (2 - 1), cell_index 2 2, cell_index 2 (2 + 1)] ∧
      simulate_cells c1
        = some (grid_of [cell_index (2 - 1) 2, cell_index 2 2, cell_index (2 + 1) 2]) :=
  (blinker_oscillates (grid_of [cell_index (2 - 1) 2, cell_index 2 2, cell_index (2 + 1) 2]) 2 2
    (by decide) (by decide)).1 (only_alive_grid_of _ (by decide))

/-- C10: every index used to access `cells` is inside the array, without
wrap-around of the `size_t` arithmetic: (a) `j + i*CELL_ROWS` for every interior
`(j, i)`; (b) `(x+j) + (y+i)*CELL_ROWS` for every interior centre `(x, y)` and
offsets `i, j ∈ {-1, 0, 1}`; (c) `mouse_y*CELL_ROWS + mouse_x` for every accepted
`mouse_x ∈ [0, CELL_ROWS+1]`, `mouse_y ∈ [0, CELL_COLS+1]`.  Hence the
initialisation succeeds, and in every reachable state `current_cell` and
`previous_cell` are below `CELL_COUNT` and one more iteration of the main loop,
on any pending events, never takes the out-of-range branch of a checked access. -/
theorem indices_in_bounds :
    (∀ i j : Nat, 1 ≤ i → i ≤ CELL_COLS → 1 ≤ j → j ≤ CELL_ROWS →
      cell_index j i = j + i * CELL_ROWS ∧ cell_index j i < CELL_COUNT) ∧
    (∀ (x y : Nat) (j i : Int), 1 ≤ x → x ≤ CELL_ROWS → 1 ≤ y → y ≤ CELL_COLS →
      (j = -1 ∨ j = 0 ∨ j = 1) → (i = -1 ∨ i = 0 ∨ i = 1) →
      (nbr_index x y j i : Int) = (x + j) + (y + i) * CELL_ROWS ∧
        nbr_index x y j i < CELL_COUNT) ∧
    (∀ mouse_x mouse_y : Nat, mouse_x ≤ CELL_ROWS + 1 → mouse_y ≤ CELL_COLS + 1 →
      mouse_y * CELL_ROWS + mouse_x < CELL_COUNT) ∧
    (∃ s0, init = some s0) ∧
    (∀ s : State, Reachable s →
      s.current_cell < CELL_COUNT ∧ s.previous_cell < CELL_COUNT ∧
      s.cells.length = CELL_COUNT ∧
      ∀ q : List Event, ∃ s' q', frame s q = some (s', q')) := by
  refine ⟨?_, ?_, ?_, ?_, ?_⟩
  · intro i j hi1 hi2 hj1 hj2
    rw [CELL_COLS_eq] at hi2
    rw [CELL_ROWS_eq] at hj2
    rw [cell_index_eq j i (by omega) (by omega), CELL_ROWS_eq, CELL_COUNT_eq]
    exact ⟨rfl, by omega⟩
  · intro x y j i hx1 hx2 hy1 hy2 hj hi
    rw [CELL_ROWS_eq] at hx2
    rw [CELL_COLS_eq] at hy2
    have h := nbr_index_eq x y j i ⟨hx1, hx2⟩ ⟨hy1, hy2⟩ hj hi
    rw [CELL_ROWS_eq, CELL_COUNT_eq]
    refine ⟨by rw [h]; push_cast; ring, ?_⟩
    rcases hj with rfl | rfl | rfl <;> rcases hi with rfl | rfl | rfl <;> omega
  · intro mx my hx hy
    rw [CELL_ROWS_eq] at hx ⊢
    rw [CELL_COLS_eq] at hy
    rw [CELL_COUNT_eq]
    omega
  · obtain ⟨cells, hinit, _, _⟩ := init_eq
    exact ⟨_, hinit⟩
  · intro s hs
    have hwf := reachable_wf s hs
    refine ⟨hwf.2.2, hwf.2.1, hwf.1, ?_⟩
    intro q
    obtain ⟨s', q', h, _⟩ := frame_total s q hwf
    exact ⟨s', q', h⟩

/-- C10, witness: part (b) at the corner cell `(CELL_ROWS, CELL_COLS)` with the
offsets `(1, 1)`. -/
theorem indices_in_bounds_witness :
    (nbr_index 120 80 1 1 : Int) = ((120 : Nat) + 1) + ((80 : Nat) + 1) * CELL_ROWS ∧
      nbr_index 120 80 1 1 < CELL_COUNT :=
  indices_in_bounds.2.1 120 80 1 1 (by decide) (by decide) (by decide) (by decide)
    (by decide) (by decide)

end GameOfLife
